import Mathlib

/-!
Verification of the verbeth indexer core against its specification.

The Rust sources are shallowly embedded: pure functions become Lean
functions, and the SQLite database is modelled as an explicit `Db` state
threaded through each operation.  Machine integers (`u64`, `i64`, `usize`)
are modelled as `Nat` (respectively `Int` for the signed checkpoint value):
every counter in the program starts at 0 and only ever grows by 1, so
wrap-around is unreachable in the scenarios the claims quantify over.
32-byte words (`B256`) and 20-byte addresses are modelled by their numeric
value; byte strings (`Vec<u8>`) are modelled
as `List Nat`, since the core only ever inspects their length.
-/

/-- 32-byte EVM word (`alloy::primitives::B256`), modelled by its numeric value. -/
abbrev B256 := Nat

/-- 20-byte EVM address (`alloy::primitives::Address`), modelled by its numeric value. -/
abbrev Address := Nat

/-- A byte string (`Vec<u8>`); the core only inspects lengths. -/
abbrev Bytes := List Nat

/-- `IndexerError` from `error.rs`.  Error payloads carried by external
library types (`rusqlite::Error`, `r2d2::Error`, transport errors, join
errors) are modelled by their display string.  The `PayloadTooLarge`
variant is the one constructed by `validate_payload_sizes` in
`processor.rs` with named fields `field`, `size`, `max`. -/
inductive IndexerError where
  | Database (msg : String)
  | Pool (msg : String)
  | Rpc (msg : String)
  | Config (msg : String)
  | Decode (msg : String)
  | PayloadTooLarge (field : String) (size : Nat) (max : Nat)
  | BlockNotFound (n : Nat)
  | Join (msg : String)
deriving DecidableEq, Repr

/-- `VerbethEvent` from `processor.rs`. -/
inductive VerbethEvent where
  | MessageSent (sender : Address) (ciphertext : Bytes) (timestamp : Nat)
      (topic : B256) (nonce : Nat)
  | Handshake (recipient_hash : B256) (sender : Address) (pub_keys : Bytes)
      (ephemeral_pub_key : Bytes) (plaintext_payload : Bytes)
  | HandshakeResponse (in_response_to : B256) (responder : Address)
      (responder_ephemeral_r : B256) (ciphertext : Bytes)
deriving DecidableEq, Repr

/-- `LogWithMeta` from `processor.rs`. -/
structure LogWithMeta where
  event : VerbethEvent
  block_number : Nat
  log_index : Nat
  block_timestamp : Nat
deriving DecidableEq, Repr

-- Payload size limits from `processor.rs`.
def MAX_CIPHERTEXT_SIZE : Nat := 64 * 1024
def MAX_PUB_KEYS_SIZE : Nat := 65
def MAX_EPHEMERAL_KEY_SIZE : Nat := 1216
def MAX_PLAINTEXT_PAYLOAD_SIZE : Nat := 1024
def MAX_HSR_CIPHERTEXT_SIZE : Nat := 4 * 1024

/-- `validate_payload_sizes` from `processor.rs`: a cascade of length
checks, each returning `PayloadTooLarge` on violation. -/
def validate_payload_sizes (event : VerbethEvent) : Except IndexerError Unit :=
  match event with
  | .MessageSent _ ciphertext _ _ _ =>
      if ciphertext.length > MAX_CIPHERTEXT_SIZE then
        .error (.PayloadTooLarge "ciphertext" ciphertext.length MAX_CIPHERTEXT_SIZE)
      else .ok ()
  | .Handshake _ _ pub_keys ephemeral_pub_key plaintext_payload =>
      if pub_keys.length > MAX_PUB_KEYS_SIZE then
        .error (.PayloadTooLarge "pubKeys" pub_keys.length MAX_PUB_KEYS_SIZE)
      else if ephemeral_pub_key.length > MAX_EPHEMERAL_KEY_SIZE then
        .error (.PayloadTooLarge "ephemeralPubKey" ephemeral_pub_key.length
          MAX_EPHEMERAL_KEY_SIZE)
      else if plaintext_payload.length > MAX_PLAINTEXT_PAYLOAD_SIZE then
        .error (.PayloadTooLarge "plaintextPayload" plaintext_payload.length
          MAX_PLAINTEXT_PAYLOAD_SIZE)
      else .ok ()
  | .HandshakeResponse _ _ _ ciphertext =>
      if ciphertext.length > MAX_HSR_CIPHERTEXT_SIZE then
        .error (.PayloadTooLarge "hsrCiphertext" ciphertext.length MAX_HSR_CIPHERTEXT_SIZE)
      else .ok ()

/-- `MessageRow` from `db/models.rs` (`seq` and the chain-position fields
are `i64` in the source, always non-negative by construction). -/
structure MessageRow where
  topic : B256
  seq : Nat
  sender : Address
  ciphertext : Bytes
  timestamp : Nat
  nonce : Nat
  block_number : Nat
  log_index : Nat
  block_timestamp : Nat
deriving DecidableEq, Repr

/-- `HandshakeRow` from `db/models.rs`. -/
structure HandshakeRow where
  recipient_hash : B256
  seq : Nat
  sender : Address
  pub_keys : Bytes
  ephemeral_pub_key : Bytes
  plaintext_payload : Bytes
  block_number : Nat
  log_index : Nat
  block_timestamp : Nat
deriving DecidableEq, Repr

/-- `HsrRow` from `db/models.rs`. -/
structure HsrRow where
  global_seq : Nat
  in_response_to : B256
  responder : Address
  responder_ephemeral_r : B256
  ciphertext : Bytes
  block_number : Nat
  log_index : Nat
  block_timestamp : Nat
deriving DecidableEq, Repr

/-- `EventCounts` from `db/models.rs`. -/
structure EventCounts where
  messages : Nat
  handshakes : Nat
  handshake_responses : Nat
deriving DecidableEq, Repr

/-- One row of the `seq_counters` table (`schema.rs`):
`PRIMARY KEY(key_type, key_hash)` with `key_hash` nullable. -/
structure SeqCounterRow where
  key_type : String
  key_hash : Option B256
  next_seq : Nat
deriving DecidableEq, Repr

/-- The SQLite database state after `run_migrations` (`schema.rs`):
the three event tables, the `seq_counters` table, and the
`indexer_state` key/value table.  Each table is the list of its rows in
rowid (insertion) order.  Only the key `'last_block'` of `indexer_state`
is ever read or written by the program, so the table is modelled by that
single optional cell. -/
structure Db where
  messages : List MessageRow
  handshakes : List HandshakeRow
  handshake_responses : List HsrRow
  seq_counters : List SeqCounterRow
  indexer_state : Option String
deriving DecidableEq, Repr

/-- The freshly migrated database: all tables empty, no checkpoint row. -/
def emptyDb : Db := ⟨[], [], [], [], none⟩

/-- Row predicate for `key_type = ?1 AND key_hash IS ?2` (`queries.rs`).
SQLite's `IS` operator compares NULLs as equal, which `Option` equality
captures exactly. -/
def matchesKey (key_type : String) (key_hash : Option B256) (r : SeqCounterRow) : Bool :=
  r.key_type == key_type && r.key_hash == key_hash

/-- The `SELECT next_seq FROM seq_counters WHERE key_type = ?1 AND key_hash IS ?2`
of `get_and_increment_seq`, combined with `query_row ... .optional ... .unwrap_or(0)`:
`query_row` returns the first matching row in scan (rowid) order, and an
absent row yields 0. -/
def seqCounterSelect (rows : List SeqCounterRow) (key_type : String)
    (key_hash : Option B256) : Nat :=
  match rows.find? (matchesKey key_type key_hash) with
  | some r => r.next_seq
  | none => 0

/-- The `INSERT INTO seq_counters ... ON CONFLICT(key_type, key_hash) DO UPDATE`
of `get_and_increment_seq`.  Per SQLite semantics, the `DO UPDATE` branch
runs only when the insert would actually violate the `PRIMARY KEY(key_type,
key_hash)` uniqueness constraint, and for uniqueness SQLite treats NULL as
distinct from every value including other NULLs (and, by a documented
long-standing quirk, permits NULLs in non-INTEGER primary key columns).
Hence a NULL `key_hash` never conflicts: the statement then inserts a fresh
row instead of updating the existing one. -/
def seqCounterUpsert (rows : List SeqCounterRow) (key_type : String)
    (key_hash : Option B256) (v : Nat) : List SeqCounterRow :=
  if key_hash.isSome && rows.any (matchesKey key_type key_hash) then
    rows.map (fun r => if matchesKey key_type key_hash r then { r with next_seq := v } else r)
  else
    rows ++ [⟨key_type, key_hash, v⟩]

/-- `get_and_increment_seq` from `db/queries.rs`: read the current
`next_seq` (0 if absent), write back `seq + 1` via the upsert statement,
return `seq`.  The two SQL statements run on one connection but not inside
an explicit transaction. -/
def get_and_increment_seq (db : Db) (key_type : String) (key_hash : Option B256) :
    Nat × Db :=
  let seq := seqCounterSelect db.seq_counters key_type key_hash
  (seq, { db with seq_counters := seqCounterUpsert db.seq_counters key_type key_hash (seq + 1) })

/-- `insert_message` from `db/queries.rs`: `INSERT OR IGNORE` guarded by
the `UNIQUE(topic, seq)` constraint of the `messages` table; returns
whether a row was inserted. -/
def insert_message (db : Db) (row : MessageRow) : Bool × Db :=
  if db.messages.any (fun r => r.topic == row.topic && r.seq == row.seq) then
    (false, db)
  else
    (true, { db with messages := db.messages ++ [row] })

/-- `insert_handshake` from `db/queries.rs`: `INSERT OR IGNORE` guarded by
`UNIQUE(recipient_hash, seq)`. -/
def insert_handshake (db : Db) (row : HandshakeRow) : Bool × Db :=
  if db.handshakes.any (fun r => r.recipient_hash == row.recipient_hash && r.seq == row.seq) then
    (false, db)
  else
    (true, { db with handshakes := db.handshakes ++ [row] })

/-- `insert_hsr` from `db/queries.rs`: `INSERT OR IGNORE` guarded by the
`UNIQUE` constraint on `global_seq`. -/
def insert_hsr (db : Db) (row : HsrRow) : Bool × Db :=
  if db.handshake_responses.any (fun r => r.global_seq == row.global_seq) then
    (false, db)
  else
    (true, { db with handshake_responses := db.handshake_responses ++ [row] })

/-- `EventProcessor::process` from `processor.rs`: validate payload sizes,
then allocate a sequence number and insert the event row.  The two
database statements are issued back to back on the pooled connection with
no enclosing transaction.  Connection-pool acquisition and SQL-level
failures are environmental and not modelled (the model store always
answers); on a validation error the function returns before touching the
store. -/
def EventProcessor.process (db : Db) (log : LogWithMeta) : Except IndexerError Bool × Db :=
  match validate_payload_sizes log.event with
  | .error e => (.error e, db)
  | .ok _ =>
    match log.event with
    | .MessageSent sender ciphertext timestamp topic nonce =>
        let r1 := get_and_increment_seq db "message" (some topic)
        let r2 := insert_message r1.2
          { topic := topic, seq := r1.1, sender := sender, ciphertext := ciphertext,
            timestamp := timestamp, nonce := nonce, block_number := log.block_number,
            log_index := log.log_index, block_timestamp := log.block_timestamp }
        (.ok r2.1, r2.2)
    | .Handshake recipient_hash sender pub_keys ephemeral_pub_key plaintext_payload =>
        let r1 := get_and_increment_seq db "handshake" (some recipient_hash)
        let r2 := insert_handshake r1.2
          { recipient_hash := recipient_hash, seq := r1.1, sender := sender,
            pub_keys := pub_keys, ephemeral_pub_key := ephemeral_pub_key,
            plaintext_payload := plaintext_payload, block_number := log.block_number,
            log_index := log.log_index, block_timestamp := log.block_timestamp }
        (.ok r2.1, r2.2)
    | .HandshakeResponse in_response_to responder responder_ephemeral_r ciphertext =>
        let r1 := get_and_increment_seq db "hsr" none
        let r2 := insert_hsr r1.2
          { global_seq := r1.1, in_response_to := in_response_to, responder := responder,
            responder_ephemeral_r := responder_ephemeral_r, ciphertext := ciphertext,
            block_number := log.block_number, log_index := log.log_index,
            block_timestamp := log.block_timestamp }
        (.ok r2.1, r2.2)

instance {ε α : Type} [DecidableEq ε] [DecidableEq α] : DecidableEq (Except ε α) :=
  fun x y =>
    match x, y with
    | .error a, .error b =>
        if h : a = b then .isTrue (by rw [h]) else .isFalse (by simp [h])
    | .error _, .ok _ => .isFalse (by simp)
    | .ok _, .error _ => .isFalse (by simp)
    | .ok a, .ok b =>
        if h : a = b then .isTrue (by rw [h]) else .isFalse (by simp [h])

/-- Rust's `str::parse::<i64>()` (`i64::from_str`): an optional single
sign, then one or more ASCII digits, with an overflow check against the
`i64` range. -/
def parseI64 (s : String) : Option Int :=
  match s.data with
  | [] => none
  | c :: rest =>
    let signed : Int × List Char :=
      if c = '-' then (-1, rest) else if c = '+' then (1, rest) else (1, c :: rest)
    if signed.2.isEmpty then none
    else if signed.2.all Char.isDigit then
      let n : Nat := signed.2.foldl (fun acc d => acc * 10 + (d.toNat - '0'.toNat)) 0
      let v : Int := signed.1 * n
      if -(2 ^ 63) ≤ v ∧ v < 2 ^ 63 then some v else none
    else none

/-- `get_last_processed_block` from `db/queries.rs`: read the
`'last_block'` row of `indexer_state` and parse its text value, mapping a
parse failure to `None` via `.ok()`.  The `Except` layer carries only
environmental SQL errors, which the model omits, so the result is always
`ok`. -/
def get_last_processed_block (db : Db) : Except IndexerError (Option Int) :=
  .ok (db.indexer_state.bind parseI64)

/-- `set_last_processed_block` from `db/queries.rs`: `INSERT OR REPLACE`
of the `'last_block'` row with the decimal rendering of `block`. -/
def set_last_processed_block (db : Db) (block : Int) : Db :=
  { db with indexer_state := some (toString block) }

/-- `get_event_counts` from `db/queries.rs`: the three `COUNT(*)` queries. -/
def get_event_counts (db : Db) : EventCounts :=
  ⟨db.messages.length, db.handshakes.length, db.handshake_responses.length⟩

/-- `is_db_empty` from `db/queries.rs`. -/
def is_db_empty (db : Db) : Bool :=
  let counts := get_event_counts db
  counts.messages == 0 && counts.handshakes == 0 && counts.handshake_responses == 0

/-- `FailedEvent` from `retry_queue.rs`. -/
structure FailedEvent where
  log : LogWithMeta
  retry_count : Nat
  last_error : String
deriving DecidableEq, Repr

def MAX_RETRIES : Nat := 3
def MAX_QUEUE_SIZE : Nat := 1000

/-- `RetryQueue` from `retry_queue.rs`: the `VecDeque` behind the mutex,
front of the deque at the head of the list. -/
structure RetryQueue where
  queue : List FailedEvent
deriving DecidableEq, Repr

/-- `RetryQueue::new`. -/
def RetryQueue.new : RetryQueue := ⟨[]⟩

/-- `RetryQueue::push`: if the deque is at capacity, pop and dead-letter
the oldest entry (an error-level log line), then push a fresh record with
`retry_count = 0`. -/
def RetryQueue.push (q : RetryQueue) (log : LogWithMeta) (error : String) : RetryQueue :=
  let q1 := if q.queue.length ≥ MAX_QUEUE_SIZE then q.queue.tail else q.queue
  ⟨q1 ++ [⟨log, 0, error⟩]⟩

/-- `RetryQueue::push_retry`: increment `retry_count`; if it reached
`MAX_RETRIES`, dead-letter (log and discard), else push the entry back.
There is no capacity check on this path. -/
def RetryQueue.push_retry (q : RetryQueue) (event : FailedEvent) (error : String) :
    RetryQueue :=
  let e := { event with retry_count := event.retry_count + 1, last_error := error }
  if e.retry_count ≥ MAX_RETRIES then q else ⟨q.queue ++ [e]⟩

/-- `RetryQueue::pop`. -/
def RetryQueue.pop (q : RetryQueue) : Option FailedEvent × RetryQueue :=
  (q.queue.head?, ⟨q.queue.tail⟩)

/-- A client call on the retry queue, for reasoning about arbitrary call
sequences. -/
inductive RQOp where
  | push (log : LogWithMeta) (error : String)
  | pushRetry (event : FailedEvent) (error : String)
  | pop
deriving Repr

def RQOp.isPushRetry : RQOp → Bool
  | .pushRetry _ _ => true
  | _ => false

def RetryQueue.step (q : RetryQueue) (op : RQOp) : RetryQueue :=
  match op with
  | .push log error => q.push log error
  | .pushRetry event error => q.push_retry event error
  | .pop => (q.pop).2

/-- The queue resulting from a sequence of calls on a fresh queue. -/
def RetryQueue.run (ops : List RQOp) : RetryQueue :=
  ops.foldl RetryQueue.step RetryQueue.new

-- HTTP status codes used by `api/health.rs`.
def SERVICE_UNAVAILABLE : Nat := 503
def INTERNAL_SERVER_ERROR : Nat := 500

/-- `HealthResponse` from `api/health.rs` (`EventCountsResponse` is a
field-for-field copy of `EventCounts`). -/
structure HealthResponse where
  status : String
  last_block : Option Int
  uptime_seconds : Nat
  counts : EventCounts
deriving DecidableEq, Repr

/-- The `health` handler from `api/health.rs`.  The three store calls can
each fail environmentally (pool exhaustion, SQL error); the Booleans
`connOk`, `lastBlockOk`, `countsOk` inject those outcomes.  `pool.get()`
failure maps to 503 (`SERVICE_UNAVAILABLE`); failure of the checkpoint
read or of the count query maps to 500 (`INTERNAL_SERVER_ERROR`). -/
def health (db : Db) (uptime_seconds : Nat) (connOk lastBlockOk countsOk : Bool) :
    Except Nat HealthResponse :=
  if !connOk then .error SERVICE_UNAVAILABLE
  else if !lastBlockOk then .error INTERNAL_SERVER_ERROR
  else
    match get_last_processed_block db with
    | .error _ => .error INTERNAL_SERVER_ERROR
    | .ok last_block =>
      if !countsOk then .error INTERNAL_SERVER_ERROR
      else
        .ok { status := if last_block.isSome then "ok" else "syncing",
              last_block := last_block,
              uptime_seconds := uptime_seconds,
              counts := get_event_counts db }

/-- The per-log body of `connect_and_subscribe` (`subscriber.rs`) acting
on the store: on `Ok(true)` (`Inserted`) it writes
`set_last_processed_block(conn, block_number as i64)` with no comparison
against the previously stored value; on `Ok(false)` (`Duplicate`) and on
error (the event goes to the retry queue) the checkpoint is untouched. -/
def connect_and_subscribe_step (db : Db) (log : LogWithMeta) : Db :=
  match EventProcessor.process db log with
  | (.ok true, db1) => set_last_processed_block db1 (log.block_number : Int)
  | (.ok false, db1) => db1
  | (.error _, db1) => db1

/-- The per-entry body of `run_retry_loop` (`subscriber.rs`) acting on the
store: on `Ok(true)` it writes `set_last_processed_block(conn,
block_number as i64)` for the retried entry's block, again without any
monotonicity gate; on `Ok(false)` it drops the entry; on error it calls
`push_retry` and the checkpoint is untouched. -/
def run_retry_loop_step (db : Db) (failed : FailedEvent) : Db :=
  match EventProcessor.process db failed.log with
  | (.ok true, db1) => set_last_processed_block db1 (failed.log.block_number : Int)
  | (.ok false, db1) => db1
  | (.error _, db1) => db1

/-- The chunk starts iterated by `run_backfill` (`backfill.rs`):
`for chunk_start in (from_block..=to_block).step_by(chunk_size)`.
Rust's `step_by` panics on a zero step; the `chunk_size = 0` branch
totalises that panic as an empty iteration and is unreachable under the
claims' `chunk_size ≥ 1` hypothesis. -/
def chunkStarts (chunk_start to_block chunk_size : Nat) : List Nat :=
  if chunk_size = 0 then []
  else if chunk_start ≤ to_block then
    chunk_start :: chunkStarts (chunk_start + chunk_size) to_block chunk_size
  else []
termination_by to_block + 1 - chunk_start
decreasing_by omega

/-- The `(chunk_start, chunk_end)` pairs of `run_backfill`, with
`chunk_end = (chunk_start + chunk_size - 1).min(to_block)`. -/
def backfillChunks (from_block to_block chunk_size : Nat) : List (Nat × Nat) :=
  (chunkStarts from_block to_block chunk_size).map
    (fun cs => (cs, min (cs + chunk_size - 1) to_block))

/-- A raw chain log (`alloy::rpc::types::Log`): the indexed topic words,
the ABI-encoded data, and the optional chain position fields. -/
structure RawLog where
  topics : List B256
  data : Bytes
  block_number : Option Nat
  log_index : Option Nat
deriving DecidableEq, Repr

/-- Rust `Ord` on `Option<u64>`: `None` sorts below every `Some`. -/
def optNatCmp (a b : Option Nat) : Ordering :=
  match a, b with
  | none, none => .eq
  | none, some _ => .lt
  | some _, none => .gt
  | some x, some y => compare x y

/-- Rust `Ord` on the sort key `(l.block_number, l.log_index)` used by
`logs.sort_by_key` in `run_backfill`: lexicographic on the pair. -/
def logKeyCmp (a b : RawLog) : Ordering :=
  match optNatCmp a.block_number b.block_number with
  | .eq => optNatCmp a.log_index b.log_index
  | o => o

/-- The non-strict order induced by `logKeyCmp`. -/
def logKeyLe (a b : RawLog) : Bool :=
  match logKeyCmp a b with
  | .gt => false
  | _ => true

/-- The per-chunk log list as processed by `run_backfill`: the logs the
RPC returned for the chunk's block range, stably sorted by
`(block_number, log_index)` (Rust `Vec::sort_by_key` is a stable merge
sort). -/
def backfillChunkLogsSorted (getLogs : Nat → Nat → List RawLog) (c : Nat × Nat) :
    List RawLog :=
  (getLogs c.1 c.2).mergeSort logKeyLe

/-- The per-chunk processed log lists of a whole backfill run, in chunk
order, where `getLogs chunk_start chunk_end` is the RPC response for one
chunk. -/
def backfillProcessedLogs (getLogs : Nat → Nat → List RawLog)
    (from_block to_block chunk_size : Nat) : List (List RawLog) :=
  (backfillChunks from_block to_block chunk_size).map
    (backfillChunkLogsSorted getLogs)

/-- The successive `set_last_processed_block(conn, chunk_end as i64)`
writes issued by `run_backfill`, one after each chunk. -/
def backfillCheckpointWrites (from_block to_block chunk_size : Nat) : List Nat :=
  (backfillChunks from_block to_block chunk_size).map (·.2)

/-- The decoded `MessageSent` log as produced by the alloy-generated
`MessageSent::decode_log`; `timestamp` and `nonce` are `uint256` values. -/
structure DecodedMessageSent where
  sender : Address
  ciphertext : Bytes
  timestamp : Nat
  topic : B256
  nonce : Nat
deriving DecidableEq, Repr

/-- The decoded `Handshake` log. -/
structure DecodedHandshake where
  recipientHash : B256
  sender : Address
  pubKeys : Bytes
  ephemeralPubKey : Bytes
  plaintextPayload : Bytes
deriving DecidableEq, Repr

/-- The decoded `HandshakeResponse` log. -/
structure DecodedHandshakeResponse where
  inResponseTo : B256
  responder : Address
  responderEphemeralR : B256
  ciphertext : Bytes
deriving DecidableEq, Repr

def U64_MAX : Nat := 2 ^ 64 - 1

/-- Rust `u256.try_into::<u64>().ok()`: succeeds exactly for values that
fit in 64 bits. -/
def u256_try_into_u64 (x : Nat) : Option Nat :=
  if x ≤ U64_MAX then some x else none

/-- The external ABI machinery used by `decode_log` (`events.rs` plus the
alloy `sol!` expansion): the three `keccak256` signature hashes and the
three fallible `decode_log` functions.  These live outside the repository
and are abstracted as parameters. -/
structure EventAbi where
  MessageSent_SIGNATURE_HASH : B256
  Handshake_SIGNATURE_HASH : B256
  HandshakeResponse_SIGNATURE_HASH : B256
  decodeMessageSent : RawLog → Option DecodedMessageSent
  decodeHandshake : RawLog → Option DecodedHandshake
  decodeHandshakeResponse : RawLog → Option DecodedHandshakeResponse

/-- `decode_log` from `processor.rs`: inspect the first topic, dispatch on
the three known signature hashes, and convert the `uint256` `timestamp`
and `nonce` of `MessageSent` to `u64` via `try_into().ok()?`.  Every
failure path returns `none`. -/
def decode_log (abi : EventAbi) (log : RawLog) : Option VerbethEvent :=
  match log.topics with
  | [] => none
  | sig :: _ =>
    if sig = abi.MessageSent_SIGNATURE_HASH then
      match abi.decodeMessageSent log with
      | none => none
      | some d =>
        match u256_try_into_u64 d.timestamp, u256_try_into_u64 d.nonce with
        | some ts, some n => some (.MessageSent d.sender d.ciphertext ts d.topic n)
        | _, _ => none
    else if sig = abi.Handshake_SIGNATURE_HASH then
      match abi.decodeHandshake log with
      | none => none
      | some d =>
          some (.Handshake d.recipientHash d.sender d.pubKeys d.ephemeralPubKey
            d.plaintextPayload)
    else if sig = abi.HandshakeResponse_SIGNATURE_HASH then
      match abi.decodeHandshakeResponse log with
      | none => none
      | some d =>
          some (.HandshakeResponse d.inResponseTo d.responder d.responderEphemeralR
            d.ciphertext)
    else none

/-- The size condition of claim C4, written from the claim's words: some
payload field strictly exceeds its cap (`MessageSent.ciphertext` 65536,
`Handshake.pub_keys` 65, `Handshake.ephemeral_pub_key` 1216,
`Handshake.plaintext_payload` 1024, `HandshakeResponse.ciphertext` 4096
bytes). -/
def payloadExceedsCap (event : VerbethEvent) : Bool :=
  match event with
  | .MessageSent _ ciphertext _ _ _ => 65536 < ciphertext.length
  | .Handshake _ _ pub_keys ephemeral_pub_key plaintext_payload =>
      65 < pub_keys.length || 1216 < ephemeral_pub_key.length ||
        1024 < plaintext_payload.length
  | .HandshakeResponse _ _ _ ciphertext => 4096 < ciphertext.length

/-- The stored `seq` values of the messages stream with key `t`, in rowid
order. -/
def msgSeqs (db : Db) (t : B256) : List Nat :=
  (db.messages.filter (fun r => r.topic == t)).map (·.seq)

/-- The stored `seq` values of the handshakes stream with key `h`, in
rowid order. -/
def hsSeqs (db : Db) (h : B256) : List Nat :=
  (db.handshakes.filter (fun r => r.recipient_hash == h)).map (·.seq)

/-- The stored `global_seq` values of the single handshake-responses
stream, in rowid order. -/
def hsrSeqs (db : Db) : List Nat :=
  db.handshake_responses.map (·.global_seq)

/-- The store after processing a sequence of logs starting from the
freshly migrated database. -/
def replay (logs : List LogWithMeta) : Db :=
  logs.foldl (fun db log => (EventProcessor.process db log).2) emptyDb

/-- Inductive invariant for claim C2: each stream's stored `seq` list is
exactly `[0, …, N-1]` in insertion order, and the value the next
`get_and_increment_seq` would allocate for that stream never exceeds the
stream's row count. -/
def DbInv (db : Db) : Prop :=
  (∀ t, msgSeqs db t = List.range (msgSeqs db t).length ∧
      seqCounterSelect db.seq_counters "message" (some t) ≤ (msgSeqs db t).length) ∧
  (∀ h, hsSeqs db h = List.range (hsSeqs db h).length ∧
      seqCounterSelect db.seq_counters "handshake" (some h) ≤ (hsSeqs db h).length) ∧
  (hsrSeqs db = List.range (hsrSeqs db).length ∧
      seqCounterSelect db.seq_counters "hsr" none ≤ (hsrSeqs db).length)

/-- Encoding of `Option Nat` that translates Rust's `Ord` on `Option<u64>`
into the order on `Nat`. -/
def encOpt : Option Nat → Nat
  | none => 0
  | some x => x + 1

-- Concrete inputs used by counterexamples and witnesses.

/-- A `MessageSent` log for topic 11 (block 100, log 0). -/
def msgLogTopic11 : LogWithMeta := ⟨.MessageSent 1 [0] 0 11 0, 100, 0, 0⟩

/-- A database state in which the row `(topic 11, seq 0)` is present while
the `message`/topic-11 counter still holds `next_seq = 0`, so the next
allocated sequence collides with the stored row. -/
def dupStateDb : Db :=
  { emptyDb with
    messages := [⟨11, 0, 1, [0], 0, 0, 90, 0, 0⟩],
    seq_counters := [⟨"message", some 11, 0⟩] }

/-- A live `MessageSent` log at block 200. -/
def logAt200 : LogWithMeta := ⟨.MessageSent 1 [0] 0 11 0, 200, 0, 0⟩

/-- A retry-queue entry for a `Handshake` log at block 100 that failed
once with a transient error. -/
def failedAt100 : FailedEvent := ⟨⟨.Handshake 22 1 [0] [0] [0], 100, 0, 0⟩, 0, "database error"⟩

/-- The first, second and third states of the `hsr` counter under
successive `get_and_increment_seq` calls with the NULL stream key. -/
def hsrDb1 : Db := (get_and_increment_seq emptyDb "hsr" none).2

def hsrDb2 : Db := (get_and_increment_seq hsrDb1 "hsr" none).2

/-- A placeholder log for retry-queue traces. -/
def dummyLog : LogWithMeta := ⟨.MessageSent 0 [] 0 0 0, 0, 0, 0⟩

/-- A fresh failed event (`retry_count = 0`). -/
def dummyFailed : FailedEvent := ⟨dummyLog, 0, "err"⟩

/-- 1000 `push` calls followed by one `push_retry` call. -/
def rqOverflowTrace : List RQOp :=
  List.replicate 1000 (RQOp.push dummyLog "err") ++ [RQOp.pushRetry dummyFailed "err"]

/-- A concrete ABI instantiation whose decoders always fail, with the
three (distinct) signature hashes abstracted as 1, 2, 3. -/
def abiAllFail : EventAbi :=
  ⟨1, 2, 3, fun _ => none, fun _ => none, fun _ => none⟩

/-- A raw log with no topics. -/
def rawLogNoTopics : RawLog := ⟨[], [], none, none⟩

/-- A concrete per-chunk RPC response used to instantiate the backfill
theorem: chunk (5, 7) answers with two out-of-order logs. -/
def glWitness : Nat → Nat → List RawLog :=
  fun cs _ =>
    if cs = 5 then [⟨[1], [], some 7, some 1⟩, ⟨[1], [], some 6, some 0⟩] else []

/-!  Theorems. -/

/-- Claim C1 (code bug).  `EventProcessor::process` runs the counter
upsert and the event insert back to back with no transaction, so
(a) for a state whose event row is already present under the allocated
uniqueness key `(topic, seq)`, `process` returns `Duplicate` (`Ok(false)`)
yet the store has changed: `next_seq` advanced from 0 to 1; and
(b) replaying the very same log after it was indexed allocates a fresh
sequence number and inserts a second row (returning `Inserted` again), so
re-running backfill over an indexed range does not leave row counts
unchanged. -/
theorem process_duplicate_consumes_seq_and_replay_reinserts :
    (EventProcessor.process dupStateDb msgLogTopic11).1 = .ok false ∧
    (EventProcessor.process dupStateDb msgLogTopic11).2.seq_counters =
      [⟨"message", some 11, 1⟩] ∧
    (EventProcessor.process dupStateDb msgLogTopic11).2 ≠ dupStateDb ∧
    (EventProcessor.process emptyDb msgLogTopic11).1 = .ok true ∧
    (EventProcessor.process
        (EventProcessor.process emptyDb msgLogTopic11).2 msgLogTopic11).1 = .ok true ∧
    (EventProcessor.process
        (EventProcessor.process emptyDb msgLogTopic11).2 msgLogTopic11).2.messages.length
      = 2 := by
  decide

/-- Claim C3 (code bug).  Three successive `get_and_increment_seq` calls
with the NULL stream key return 0, 1, 1 — not 0, 1, 2 — and leave three
rows in `seq_counters` instead of one, because SQLite treats NULLs as
distinct in the `PRIMARY KEY(key_type, key_hash)` uniqueness constraint,
so the `ON CONFLICT … DO UPDATE` clause never fires for the global HSR
stream.  For a non-null key the same three calls return 0, 1, 2. -/
theorem get_and_increment_seq_null_key_broken :
    (get_and_increment_seq emptyDb "hsr" none).1 = 0 ∧
    (get_and_increment_seq hsrDb1 "hsr" none).1 = 1 ∧
    (get_and_increment_seq hsrDb2 "hsr" none).1 = 1 ∧
    hsrDb2.seq_counters.length = 2 ∧
    (get_and_increment_seq hsrDb2 "hsr" none).2.seq_counters.length = 3 ∧
    (get_and_increment_seq
      (get_and_increment_seq
        (get_and_increment_seq emptyDb "message" (some 11)).2 "message" (some 11)).2
      "message" (some 11)).1 = 2 := by
  decide

/-- Claim C5 (code bug).  A live `MessageSent` at block 200 is inserted
and the checkpoint becomes 200; the retry drainer then successfully
retries an older event at block 100 and writes
`set_last_processed_block(conn, 100)` with no `max` gate, so the stored
`last_block` regresses from 200 to 100. -/
theorem checkpoint_regresses_on_older_retry :
    get_last_processed_block (connect_and_subscribe_step emptyDb logAt200) =
      .ok (some 200) ∧
    get_last_processed_block
        (run_retry_loop_step (connect_and_subscribe_step emptyDb logAt200) failedAt100) =
      .ok (some 100) ∧
    (100 : Int) < 200 := by
  decide

/-- Claim C9 (confirmed).  When the stored `'last_block'` text does not
parse as an `i64`, `get_last_processed_block` returns `Ok(None)` — the
same result as when the row is absent — because the parse failure is
swallowed by `.ok()`. -/
theorem get_last_processed_block_corrupted_is_absent (db : Db) (s : String)
    (h : parseI64 s = none) :
    get_last_processed_block { db with indexer_state := some s } = .ok none ∧
    get_last_processed_block { db with indexer_state := some s } =
      get_last_processed_block { db with indexer_state := none } := by
  simp [get_last_processed_block, h]

/-- Witness for C9 at the concrete corrupted text value `"12x3"`. -/
theorem get_last_processed_block_corrupted_is_absent_witness :
    parseI64 "12x3" = none ∧
    get_last_processed_block { emptyDb with indexer_state := some "12x3" } = .ok none := by
  refine ⟨by decide, ?_⟩
  exact (get_last_processed_block_corrupted_is_absent emptyDb "12x3" (by decide)).1

/-- Claim C10 (confirmed).  `decode_log` is total into `Option` and
returns `none` on every degenerate input: no topics; a first topic that
matches none of the three signature hashes; a matching first topic whose
ABI decoding fails; and a well-formed `MessageSent` log whose `uint256`
`timestamp` or `nonce` exceeds `u64::MAX`, which is silently dropped. -/
theorem decode_log_none_cases (abi : EventAbi) (log : RawLog) :
    (log.topics = [] → decode_log abi log = none) ∧
    (∀ sig rest, log.topics = sig :: rest →
      sig ≠ abi.MessageSent_SIGNATURE_HASH →
      sig ≠ abi.Handshake_SIGNATURE_HASH →
      sig ≠ abi.HandshakeResponse_SIGNATURE_HASH →
      decode_log abi log = none) ∧
    (∀ sig rest, log.topics = sig :: rest →
      sig = abi.MessageSent_SIGNATURE_HASH →
      abi.decodeMessageSent log = none →
      decode_log abi log = none) ∧
    (∀ sig rest, log.topics = sig :: rest →
      sig ≠ abi.MessageSent_SIGNATURE_HASH →
      sig = abi.Handshake_SIGNATURE_HASH →
      abi.decodeHandshake log = none →
      decode_log abi log = none) ∧
    (∀ sig rest, log.topics = sig :: rest →
      sig ≠ abi.MessageSent_SIGNATURE_HASH →
      sig ≠ abi.Handshake_SIGNATURE_HASH →
      sig = abi.HandshakeResponse_SIGNATURE_HASH →
      abi.decodeHandshakeResponse log = none →
      decode_log abi log = none) ∧
    (∀ sig rest d, log.topics = sig :: rest →
      sig = abi.MessageSent_SIGNATURE_HASH →
      abi.decodeMessageSent log = some d →
      U64_MAX < d.timestamp ∨ U64_MAX < d.nonce →
      decode_log abi log = none) := by
  refine ⟨?_, ?_, ?_, ?_, ?_, ?_⟩
  · intro h
    simp [decode_log, h]
  · intro sig rest h h1 h2 h3
    simp [decode_log, h, h1, h2, h3]
  · intro sig rest h h1 hd
    subst h1
    simp [decode_log, h, hd]
  · intro sig rest h h1 h2 hd
    subst h2
    simp [decode_log, h, h1, hd]
  · intro sig rest h h1 h2 h3 hd
    subst h3
    simp [decode_log, h, h1, h2, hd]
  · intro sig rest d h h1 hd hover
    subst h1
    rcases hover with hover | hover
    · simp [decode_log, h, hd, u256_try_into_u64, Nat.not_le_of_lt hover]
    · simp [decode_log, h, hd, u256_try_into_u64, Nat.not_le_of_lt hover]

/-- Witness for C10: with always-failing decoders and distinct signature
hashes 1, 2, 3, the topicless log decodes to `none`. -/
theorem decode_log_none_cases_witness :
    decode_log abiAllFail rawLogNoTopics = none :=
  (decode_log_none_cases abiAllFail rawLogNoTopics).1 rfl

/-- Counterexample to claim C8 as stated: when the checkpoint read fails
(connection fine), the handler returns 500 (`INTERNAL_SERVER_ERROR`), not
503. -/
theorem health_query_failure_not_503 :
    health emptyDb 0 true false true = .error 500 ∧ (500 : Nat) ≠ 503 := by
  decide

/-- Claim C8 as amended.  The handler returns 503 exactly when connection
acquisition fails; a failing checkpoint read or count query yields 500;
and when every store call succeeds it returns 200 with status `"ok"`
exactly when the checkpoint read yields a parseable `last_block` value
(status `"syncing"` when it yields none). -/
theorem health_status_and_error_codes (db : Db) (u : Nat)
    (connOk lastBlockOk countsOk : Bool) :
    (connOk = false → health db u connOk lastBlockOk countsOk = .error SERVICE_UNAVAILABLE) ∧
    (connOk = true → lastBlockOk = false →
      health db u connOk lastBlockOk countsOk = .error INTERNAL_SERVER_ERROR) ∧
    (connOk = true → lastBlockOk = true → countsOk = false →
      health db u connOk lastBlockOk countsOk = .error INTERNAL_SERVER_ERROR) ∧
    ((∃ r, health db u connOk lastBlockOk countsOk = .ok r ∧ r.status = "ok") ↔
      (connOk = true ∧ lastBlockOk = true ∧ countsOk = true ∧
        ∃ n, get_last_processed_block db = .ok (some n))) ∧
    ((∃ r, health db u connOk lastBlockOk countsOk = .ok r ∧ r.status = "syncing") ↔
      (connOk = true ∧ lastBlockOk = true ∧ countsOk = true ∧
        get_last_processed_block db = .ok none)) := by
  refine ⟨?_, ?_, ?_, ?_, ?_⟩
  · intro hc
    simp [health, hc]
  · intro hc hl
    simp [health, hc, hl]
  · intro hc hl hcnt
    simp [health, hc, hl, hcnt, get_last_processed_block]
  · constructor
    · rintro ⟨r, hr, hs⟩
      cases connOk with
      | false => simp [health] at hr
      | true =>
        cases lastBlockOk with
        | false => simp [health] at hr
        | true =>
          cases countsOk with
          | false => simp [health, get_last_processed_block] at hr
          | true =>
            refine ⟨rfl, rfl, rfl, ?_⟩
            simp [health, get_last_processed_block] at hr
            cases hdb : db.indexer_state.bind parseI64 with
            | none =>
              rw [← hr] at hs
              simp [hdb] at hs
            | some n =>
              exact ⟨n, by simp [get_last_processed_block, hdb]⟩
    · rintro ⟨hc, hl, hcnt, n, hn⟩
      subst hc; subst hl; subst hcnt
      simp only [get_last_processed_block, Except.ok.injEq] at hn
      refine ⟨⟨"ok", some n, u, get_event_counts db⟩, ?_, rfl⟩
      simp [health, get_last_processed_block, hn]
  · constructor
    · rintro ⟨r, hr, hs⟩
      cases connOk with
      | false => simp [health] at hr
      | true =>
        cases lastBlockOk with
        | false => simp [health] at hr
        | true =>
          cases countsOk with
          | false => simp [health, get_last_processed_block] at hr
          | true =>
            refine ⟨rfl, rfl, rfl, ?_⟩
            simp [health, get_last_processed_block] at hr
            cases hdb : db.indexer_state.bind parseI64 with
            | none => simp [get_last_processed_block, hdb]
            | some n =>
              rw [← hr] at hs
              simp [hdb] at hs
    · rintro ⟨hc, hl, hcnt, hn⟩
      subst hc; subst hl; subst hcnt
      simp only [get_last_processed_block, Except.ok.injEq] at hn
      refine ⟨⟨"syncing", none, u, get_event_counts db⟩, ?_, rfl⟩
      simp [health, get_last_processed_block, hn]

/-- Witness for the amended C8: with an empty store and all calls
succeeding, the handler answers `"syncing"`; with a failing connection it
answers 503. -/
theorem health_status_and_error_codes_witness :
    health emptyDb 0 false true true = .error SERVICE_UNAVAILABLE ∧
    (∃ r, health emptyDb 0 true true true = .ok r ∧ r.status = "syncing") := by
  constructor
  · exact (health_status_and_error_codes emptyDb 0 false true true).1 rfl
  · exact (health_status_and_error_codes emptyDb 0 true true true).2.2.2.2.mpr
      ⟨rfl, rfl, rfl, by decide⟩

theorem rq_push_length (q : RetryQueue) (l : LogWithMeta) (e : String) :
    (q.push l e).queue.length =
      if MAX_QUEUE_SIZE ≤ q.queue.length then q.queue.length else q.queue.length + 1 := by
  by_cases h : MAX_QUEUE_SIZE ≤ q.queue.length
  · have hpos : 1 ≤ q.queue.length := le_trans (by simp [MAX_QUEUE_SIZE]) h
    simp [RetryQueue.push, ge_iff_le, h, List.length_tail]
    omega
  · simp [RetryQueue.push, ge_iff_le, h]

theorem rq_run_no_retry_bound :
    ∀ (ops : List RQOp) (q : RetryQueue),
      (∀ op ∈ ops, op.isPushRetry = false) → q.queue.length ≤ MAX_QUEUE_SIZE →
      (ops.foldl RetryQueue.step q).queue.length ≤ MAX_QUEUE_SIZE := by
  intro ops
  induction ops with
  | nil => intro q _ hq; simpa using hq
  | cons op ops ih =>
    intro q hops hq
    simp only [List.foldl_cons]
    refine ih _ (fun o ho => hops o (List.mem_cons_of_mem _ ho)) ?_
    cases op with
    | push l e =>
      simp only [RetryQueue.step]
      rw [rq_push_length]
      split <;> omega
    | pushRetry ev e =>
      have := hops _ (List.mem_cons_self _ _)
      simp [RQOp.isPushRetry] at this
    | pop =>
      simp only [RetryQueue.step, RetryQueue.pop]
      calc q.queue.tail.length ≤ q.queue.length := by
            rw [List.length_tail]; omega
        _ ≤ MAX_QUEUE_SIZE := hq

theorem rq_pushN_length :
    ∀ (n : Nat) (q : RetryQueue), q.queue.length + n ≤ MAX_QUEUE_SIZE →
      ((List.replicate n (RQOp.push dummyLog "err")).foldl RetryQueue.step q).queue.length =
        q.queue.length + n := by
  intro n
  induction n with
  | zero => intro q _; simp
  | succ n ih =>
    intro q h
    rw [List.replicate_succ, List.foldl_cons]
    have hlen : (RetryQueue.step q (RQOp.push dummyLog "err")).queue.length =
        q.queue.length + 1 := by
      simp only [RetryQueue.step]
      rw [rq_push_length]
      have : ¬ MAX_QUEUE_SIZE ≤ q.queue.length := by omega
      simp [this]
    rw [ih _ (by omega), hlen]
    omega

theorem rq_push_retry_length (q : RetryQueue) (ev : FailedEvent) (e : String) :
    (q.push_retry ev e).queue.length =
      if MAX_RETRIES ≤ ev.retry_count + 1 then q.queue.length
      else q.queue.length + 1 := by
  by_cases h : MAX_RETRIES ≤ ev.retry_count + 1
  · simp [RetryQueue.push_retry, ge_iff_le, h]
  · simp [RetryQueue.push_retry, ge_iff_le, h]

/-- Counterexample to claim C7 as stated: 1000 `push` calls fill the
queue to capacity, and a single `push_retry` then grows it to 1001
elements, because `push_retry` re-enqueues without any capacity check. -/
theorem retry_queue_exceeds_capacity :
    (RetryQueue.run rqOverflowTrace).queue.length = 1001 ∧
    MAX_QUEUE_SIZE < (RetryQueue.run rqOverflowTrace).queue.length := by
  have h1000 :
      ((List.replicate 1000 (RQOp.push dummyLog "err")).foldl RetryQueue.step
        RetryQueue.new).queue.length = 1000 := by
    rw [rq_pushN_length 1000 RetryQueue.new (by decide)]
    decide
  have hrun : RetryQueue.run rqOverflowTrace =
      RetryQueue.step
        ((List.replicate 1000 (RQOp.push dummyLog "err")).foldl RetryQueue.step
          RetryQueue.new)
        (RQOp.pushRetry dummyFailed "err") := by
    unfold RetryQueue.run rqOverflowTrace
    rw [List.foldl_append, List.foldl_cons, List.foldl_nil]
  have hfinal : (RetryQueue.run rqOverflowTrace).queue.length = 1001 := by
    rw [hrun]
    show (RetryQueue.push_retry _ dummyFailed "err").queue.length = 1001
    rw [rq_push_retry_length, if_neg (by decide), h1000]
  exact ⟨hfinal, by rw [hfinal]; decide⟩

/-- Claim C7 as amended.  Under any sequence of `push` and `pop` calls
the queue never exceeds 1000 elements, and `push` on a full queue
dead-letters the oldest entry and enqueues the new record with
`retry_count = 0`; `push_retry`, however, re-enqueues without a capacity
check (so it can exceed the bound), incrementing `retry_count` and
discarding the entry exactly when the incremented count reaches
`MAX_RETRIES = 3`. -/
theorem retry_queue_bounds_and_dead_letter :
    (∀ ops : List RQOp, (∀ op ∈ ops, op.isPushRetry = false) →
      (RetryQueue.run ops).queue.length ≤ MAX_QUEUE_SIZE) ∧
    (∀ (q : RetryQueue) (log : LogWithMeta) (error : String),
      MAX_QUEUE_SIZE ≤ q.queue.length →
      (q.push log error).queue = q.queue.tail ++ [⟨log, 0, error⟩]) ∧
    (∀ (q : RetryQueue) (event : FailedEvent) (error : String),
      MAX_RETRIES ≤ event.retry_count + 1 → q.push_retry event error = q) ∧
    (∀ (q : RetryQueue) (event : FailedEvent) (error : String),
      event.retry_count + 1 < MAX_RETRIES →
      (q.push_retry event error).queue =
        q.queue ++
          [{ event with
              retry_count := event.retry_count + 1
              last_error := error }]) := by
  refine ⟨?_, ?_, ?_, ?_⟩
  · intro ops hops
    exact rq_run_no_retry_bound ops RetryQueue.new hops (by simp [RetryQueue.new])
  · intro q log error h
    simp [RetryQueue.push, ge_iff_le, h]
  · intro q event error h
    simp only [RetryQueue.push_retry]
    rw [if_pos (by simpa [ge_iff_le] using h)]
  · intro q event error h
    simp only [RetryQueue.push_retry]
    rw [if_neg (by simp [ge_iff_le]; omega)]

/-- Witness for the amended C7: a `pop` on the fresh queue stays within
the bound, and `push_retry` of an entry already retried twice discards
it. -/
theorem retry_queue_bounds_and_dead_letter_witness :
    (RetryQueue.run [RQOp.pop]).queue.length ≤ MAX_QUEUE_SIZE ∧
    RetryQueue.push_retry RetryQueue.new ⟨dummyLog, 2, "e"⟩ "e2" = RetryQueue.new := by
  constructor
  · exact retry_queue_bounds_and_dead_letter.1 [RQOp.pop]
      (fun op hop => by rw [List.mem_singleton.mp hop]; rfl)
  · exact retry_queue_bounds_and_dead_letter.2.2.1 RetryQueue.new ⟨dummyLog, 2, "e"⟩ "e2"
      (by simp [MAX_RETRIES])

theorem validate_error_iff (e : VerbethEvent) :
    (∃ f s m, validate_payload_sizes e = .error (.PayloadTooLarge f s m)) ↔
      payloadExceedsCap e = true := by
  cases e <;>
    simp only [validate_payload_sizes, payloadExceedsCap, MAX_CIPHERTEXT_SIZE,
      MAX_PUB_KEYS_SIZE, MAX_EPHEMERAL_KEY_SIZE, MAX_PLAINTEXT_PAYLOAD_SIZE,
      MAX_HSR_CIPHERTEXT_SIZE] <;>
    split_ifs <;> simp_all

theorem validate_ok_of_within (e : VerbethEvent) (h : payloadExceedsCap e = false) :
    validate_payload_sizes e = .ok () := by
  cases e <;>
    simp only [validate_payload_sizes, payloadExceedsCap, MAX_CIPHERTEXT_SIZE,
      MAX_PUB_KEYS_SIZE, MAX_EPHEMERAL_KEY_SIZE, MAX_PLAINTEXT_PAYLOAD_SIZE,
      MAX_HSR_CIPHERTEXT_SIZE] at h ⊢ <;>
    split_ifs <;> simp_all

theorem process_of_validate_error (db : Db) (log : LogWithMeta) (e0 : IndexerError)
    (hv : validate_payload_sizes log.event = .error e0) :
    EventProcessor.process db log = (.error e0, db) := by
  unfold EventProcessor.process
  rw [hv]

theorem process_ok_of_validate_ok (db : Db) (log : LogWithMeta)
    (hv : validate_payload_sizes log.event = .ok ()) :
    ∃ b, (EventProcessor.process db log).1 = .ok b := by
  unfold EventProcessor.process
  rw [hv]
  cases log.event <;> exact ⟨_, rfl⟩

/-- Claim C4 (confirmed).  `EventProcessor::process` returns a
`PayloadTooLarge` error exactly when some payload field strictly exceeds
its cap (65536 / 65 / 1216 / 1024 / 4096 bytes; a payload exactly at its
cap passes), and on rejection the store is completely unchanged — no row
inserted and no sequence counter touched, since validation runs before
any database statement. -/
theorem process_payload_too_large_iff (db : Db) (log : LogWithMeta) :
    ((∃ f s m, (EventProcessor.process db log).1 = .error (.PayloadTooLarge f s m)) ↔
      payloadExceedsCap log.event = true) ∧
    (payloadExceedsCap log.event = true → (EventProcessor.process db log).2 = db) ∧
    (payloadExceedsCap log.event = false →
      ∃ b, (EventProcessor.process db log).1 = .ok b) := by
  refine ⟨?_, ?_, ?_⟩
  · constructor
    · rintro ⟨f, s, m, h⟩
      cases hv : validate_payload_sizes log.event with
      | error e0 =>
        rw [process_of_validate_error db log e0 hv] at h
        have h' : e0 = .PayloadTooLarge f s m := by simpa using h
        exact (validate_error_iff log.event).mp ⟨f, s, m, by rw [hv, h']⟩
      | ok u =>
        cases u
        obtain ⟨b, hb⟩ := process_ok_of_validate_ok db log hv
        rw [hb] at h
        cases h
    · intro hcap
      obtain ⟨f, s, m, hv⟩ := (validate_error_iff log.event).mpr hcap
      exact ⟨f, s, m, by rw [process_of_validate_error db log _ hv]⟩
  · intro hcap
    obtain ⟨f, s, m, hv⟩ := (validate_error_iff log.event).mpr hcap
    rw [process_of_validate_error db log _ hv]
  · intro hcap
    exact process_ok_of_validate_ok db log (validate_ok_of_within log.event hcap)

/-- Witness for C4 at scenario S3: a `MessageSent` with a 65537-byte
ciphertext is rejected with `PayloadTooLarge{ciphertext, 65537, 65536}`
and the store is unchanged, while a ciphertext of exactly 65536 bytes is
accepted. -/
theorem process_payload_too_large_iff_witness :
    payloadExceedsCap (.MessageSent 1 (List.replicate 65537 0) 0 11 0) = true ∧
    (EventProcessor.process emptyDb
        ⟨.MessageSent 1 (List.replicate 65537 0) 0 11 0, 100, 0, 0⟩).2 = emptyDb ∧
    (EventProcessor.process emptyDb
        ⟨.MessageSent 1 (List.replicate 65537 0) 0 11 0, 100, 0, 0⟩).1 =
      .error (.PayloadTooLarge "ciphertext" 65537 65536) ∧
    payloadExceedsCap (.MessageSent 1 (List.replicate 65536 0) 0 11 0) = false := by
  have hcap : payloadExceedsCap (.MessageSent 1 (List.replicate 65537 0) 0 11 0) = true := by
    simp only [payloadExceedsCap, List.length_replicate]
    decide
  refine ⟨hcap, ?_, ?_, ?_⟩
  · exact (process_payload_too_large_iff emptyDb
      ⟨.MessageSent 1 (List.replicate 65537 0) 0 11 0, 100, 0, 0⟩).2.1 hcap
  · have hv : validate_payload_sizes (.MessageSent 1 (List.replicate 65537 0) 0 11 0) =
        .error (.PayloadTooLarge "ciphertext" 65537 65536) := by
      simp only [validate_payload_sizes, List.length_replicate]
      decide
    rw [process_of_validate_error emptyDb
      ⟨.MessageSent 1 (List.replicate 65537 0) 0 11 0, 100, 0, 0⟩ _ hv]
  · simp only [payloadExceedsCap, List.length_replicate]
    decide

theorem chunkStarts_cons (a b s : Nat) (hs : s ≠ 0) (hab : a ≤ b) :
    chunkStarts a b s = a :: chunkStarts (a + s) b s := by
  rw [chunkStarts]
  simp [hs, hab]

theorem chunkStarts_nil (a b s : Nat) (hab : b < a) :
    chunkStarts a b s = [] := by
  rw [chunkStarts]
  split_ifs with h1 h2
  · rfl
  · omega
  · rfl

theorem backfillChunks_flatMap_aux (s b : Nat) (hs : s ≠ 0) :
    ∀ (n a : Nat), b + 1 - a ≤ n →
      (backfillChunks a b s).flatMap (fun c => List.range' c.1 (c.2 + 1 - c.1)) =
        List.range' a (b + 1 - a) := by
  intro n
  induction n with
  | zero =>
    intro a h
    have hab : b < a := by omega
    have h0 : b + 1 - a = 0 := by omega
    rw [backfillChunks, chunkStarts_nil a b s hab, h0]
    simp
  | succ n ih =>
    intro a h
    by_cases hab : a ≤ b
    · rw [backfillChunks, chunkStarts_cons a b s hs hab]
      simp only [List.map_cons, List.flatMap_cons]
      by_cases hend : b < a + s
      · have hmin : min (a + s - 1) b = b := by omega
        have hnil : chunkStarts (a + s) b s = [] := chunkStarts_nil _ _ _ (by omega)
        rw [hmin, hnil]
        simp
      · have hmin : min (a + s - 1) b = a + s - 1 := by omega
        have hrec := ih (a + s) (by omega)
        rw [backfillChunks] at hrec
        rw [hmin, hrec]
        have hlen : a + s - 1 + 1 - a = s := by omega
        rw [hlen]
        have happ := List.range'_append a s (b + 1 - (a + s)) 1
        simp only [one_mul] at happ
        have h2 : b + 1 - (a + s) + s = b + 1 - a := by omega
        rw [h2] at happ
        exact happ
    · have h0 : b + 1 - a = 0 := by omega
      rw [backfillChunks, chunkStarts_nil a b s (by omega), h0]
      simp

theorem backfillCheckpointWrites_getLast_aux (s b : Nat) (hs : s ≠ 0) :
    ∀ (n a : Nat), b + 1 - a ≤ n → a ≤ b →
      (backfillCheckpointWrites a b s).getLast? = some b := by
  intro n
  induction n with
  | zero => intro a h hab; omega
  | succ n ih =>
    intro a h hab
    rw [backfillCheckpointWrites, backfillChunks, chunkStarts_cons a b s hs hab]
    simp only [List.map_cons]
    by_cases hend : b < a + s
    · have hnil : chunkStarts (a + s) b s = [] := chunkStarts_nil _ _ _ (by omega)
      have hmin : min (a + s - 1) b = b := by omega
      rw [hnil, hmin]
      simp
    · have hab2 : a + s ≤ b := by omega
      have hrec := ih (a + s) (by omega) hab2
      rw [backfillCheckpointWrites, backfillChunks, chunkStarts_cons (a + s) b s hs hab2]
        at hrec
      simp only [List.map_cons] at hrec
      rw [chunkStarts_cons (a + s) b s hs hab2]
      simp only [List.map_cons]
      rw [List.getLast?_cons_cons]
      exact hrec

theorem optNatCmp_eq_compare_enc (a b : Option Nat) :
    optNatCmp a b = compare (encOpt a) (encOpt b) := by
  cases a with
  | none =>
    cases b with
    | none => exact (Nat.compare_eq_eq.2 rfl).symm
    | some y => exact (Nat.compare_eq_lt.2 (by simp [encOpt])).symm
  | some x =>
    cases b with
    | none => exact (Nat.compare_eq_gt.2 (by simp [encOpt])).symm
    | some y =>
      simp only [optNatCmp, encOpt]
      rcases Nat.lt_trichotomy x y with h | h | h
      · rw [Nat.compare_eq_lt.2 h, eq_comm, Nat.compare_eq_lt]
        omega
      · rw [Nat.compare_eq_eq.2 h, eq_comm, Nat.compare_eq_eq]
        omega
      · rw [Nat.compare_eq_gt.2 h, eq_comm, Nat.compare_eq_gt]
        omega

theorem logKeyLe_iff (a b : RawLog) :
    logKeyLe a b = true ↔
      (encOpt a.block_number < encOpt b.block_number ∨
        (encOpt a.block_number = encOpt b.block_number ∧
          encOpt a.log_index ≤ encOpt b.log_index)) := by
  unfold logKeyLe logKeyCmp
  rw [optNatCmp_eq_compare_enc, optNatCmp_eq_compare_enc]
  rcases h1 : compare (encOpt a.block_number) (encOpt b.block_number) with _ | _ | _
  · have hlt := Nat.compare_eq_lt.1 h1
    simp only []
    simp
    omega
  · have heq := Nat.compare_eq_eq.1 h1
    rcases h2 : compare (encOpt a.log_index) (encOpt b.log_index) with _ | _ | _
    · have hlt := Nat.compare_eq_lt.1 h2
      simp
      omega
    · have heq2 := Nat.compare_eq_eq.1 h2
      simp
      omega
    · have hgt := Nat.compare_eq_gt.1 h2
      simp
      omega
  · have hgt := Nat.compare_eq_gt.1 h1
    simp
    omega

theorem logKeyLe_trans (a b c : RawLog) (h1 : logKeyLe a b = true)
    (h2 : logKeyLe b c = true) : logKeyLe a c = true := by
  rw [logKeyLe_iff] at h1 h2 ⊢
  omega

theorem logKeyLe_total (a b : RawLog) : (logKeyLe a b || logKeyLe b a) = true := by
  rw [Bool.or_eq_true, logKeyLe_iff, logKeyLe_iff]
  omega

theorem backfillProcessedLogs_sorted (getLogs : Nat → Nat → List RawLog)
    (from_block to_block chunk_size : Nat) :
    ∀ l ∈ backfillProcessedLogs getLogs from_block to_block chunk_size,
      l.Pairwise (fun x y => logKeyLe x y = true) := by
  intro l hl
  unfold backfillProcessedLogs at hl
  obtain ⟨c, _, rfl⟩ := List.mem_map.1 hl
  unfold backfillChunkLogsSorted
  exact List.sorted_mergeSort logKeyLe_trans logKeyLe_total _

/-- Claim C6 (confirmed).  For `from_block ≤ to_block` and
`chunk_size ≥ 1`, the chunk intervals of `run_backfill` — chunk starts
stepping by `chunk_size` through `from_block..=to_block`, with
`chunk_end = min(chunk_start + chunk_size - 1, to_block)` — exactly
partition `[from_block, to_block]`; within each chunk the logs are
processed in ascending `(block_number, log_index)` order; and the
sequence of per-chunk `set_last_block(chunk_end)` writes ends with
`to_block`. -/
theorem run_backfill_chunk_structure (from_block to_block chunk_size : Nat)
    (getLogs : Nat → Nat → List RawLog)
    (h1 : from_block ≤ to_block) (h2 : 1 ≤ chunk_size) :
    ((backfillChunks from_block to_block chunk_size).flatMap
        (fun c => List.range' c.1 (c.2 + 1 - c.1)) =
      List.range' from_block (to_block + 1 - from_block)) ∧
    (∀ l ∈ backfillProcessedLogs getLogs from_block to_block chunk_size,
      l.Pairwise (fun x y => logKeyLe x y = true)) ∧
    (backfillCheckpointWrites from_block to_block chunk_size).getLast? =
      some to_block := by
  refine ⟨?_, backfillProcessedLogs_sorted getLogs from_block to_block chunk_size, ?_⟩
  · exact backfillChunks_flatMap_aux chunk_size to_block (by omega)
      (to_block + 1 - from_block) from_block (le_refl _)
  · exact backfillCheckpointWrites_getLast_aux chunk_size to_block (by omega)
      (to_block + 1 - from_block) from_block (le_refl _) h1

/-- Witness for C6 at `from_block = 5`, `to_block = 9`, `chunk_size = 3`:
the chunks `(5,7)` and `(8,9)` cover exactly blocks 5..9 and the final
checkpoint write is 9. -/
theorem run_backfill_chunk_structure_witness :
    ((backfillChunks 5 9 3).flatMap (fun c => List.range' c.1 (c.2 + 1 - c.1)) =
      List.range' 5 5) ∧
    (backfillCheckpointWrites 5 9 3).getLast? = some 9 :=
  ⟨(run_backfill_chunk_structure 5 9 3 glWitness (by decide) (by decide)).1,
   (run_backfill_chunk_structure 5 9 3 glWitness (by decide) (by decide)).2.2⟩

theorem matchesKey_set_next (kt : String) (kh : Option B256) (r : SeqCounterRow) (v : Nat) :
    matchesKey kt kh { r with next_seq := v } = matchesKey kt kh r := rfl

theorem matchesKey_both {kt kt' : String} {kh kh' : Option B256} {r : SeqCounterRow}
    (h : matchesKey kt kh r = true) (h' : matchesKey kt' kh' r = true) :
    kt = kt' ∧ kh = kh' := by
  simp only [matchesKey, Bool.and_eq_true, beq_iff_eq] at h h'
  exact ⟨h.1 ▸ h'.1, h.2 ▸ h'.2⟩

theorem matchesKey_self (kt : String) (kh : Option B256) (v : Nat) :
    matchesKey kt kh ⟨kt, kh, v⟩ = true := by
  simp [matchesKey]

theorem seqCounterSelect_cons_pos {kt : String} {kh : Option B256} {r : SeqCounterRow}
    (rows : List SeqCounterRow) (h : matchesKey kt kh r = true) :
    seqCounterSelect (r :: rows) kt kh = r.next_seq := by
  unfold seqCounterSelect
  rw [List.find?_cons_of_pos rows h]

theorem seqCounterSelect_cons_neg {kt : String} {kh : Option B256} {r : SeqCounterRow}
    (rows : List SeqCounterRow) (h : matchesKey kt kh r = false) :
    seqCounterSelect (r :: rows) kt kh = seqCounterSelect rows kt kh := by
  unfold seqCounterSelect
  rw [List.find?_cons_of_neg rows (by simp [h])]

theorem seqCounterSelect_nil (kt : String) (kh : Option B256) :
    seqCounterSelect [] kt kh = 0 := rfl

theorem seqCounterSelect_map_update (kt : String) (kh : Option B256) (v : Nat) :
    ∀ (rows : List SeqCounterRow), rows.any (matchesKey kt kh) = true →
      seqCounterSelect
        (rows.map (fun r => if matchesKey kt kh r then { r with next_seq := v } else r))
        kt kh = v := by
  intro rows
  induction rows with
  | nil => intro h; simp at h
  | cons r rows ih =>
    intro h
    by_cases hm : matchesKey kt kh r = true
    · simp only [List.map_cons, hm, if_true]
      rw [seqCounterSelect_cons_pos _ (by rw [matchesKey_set_next]; exact hm)]
    · simp only [List.map_cons, hm, if_false]
      rw [seqCounterSelect_cons_neg _ (by simpa using hm)]
      refine ih ?_
      rcases (List.any_eq_true).1 h with ⟨x, hx, hpx⟩
      rcases List.mem_cons.1 hx with rfl | hx'
      · exact absurd hpx hm
      · exact (List.any_eq_true).2 ⟨x, hx', hpx⟩

theorem seqCounterSelect_append_self (rows : List SeqCounterRow) (kt : String)
    (kh : Option B256) (v : Nat) (h : rows.any (matchesKey kt kh) = false) :
    seqCounterSelect (rows ++ [⟨kt, kh, v⟩]) kt kh = v := by
  unfold seqCounterSelect
  rw [List.find?_append]
  have hnone : rows.find? (matchesKey kt kh) = none := by
    rw [List.find?_eq_none]
    intro x hx hpx
    exact absurd ((List.any_eq_true).2 ⟨x, hx, hpx⟩) (by simp [h])
  rw [hnone]
  simp [List.find?, matchesKey_self]

theorem seqCounterSelect_upsert_some (rows : List SeqCounterRow) (kt : String)
    (k : B256) (v : Nat) :
    seqCounterSelect (seqCounterUpsert rows kt (some k) v) kt (some k) = v := by
  unfold seqCounterUpsert
  by_cases hany : rows.any (matchesKey kt (some k)) = true
  · simp only [Option.isSome_some, Bool.true_and, hany, if_true]
    exact seqCounterSelect_map_update kt (some k) v rows hany
  · simp only [Option.isSome_some, Bool.true_and, hany, if_false]
    exact seqCounterSelect_append_self rows kt (some k) v (by simpa using hany)

theorem seqCounterUpsert_none_eq (rows : List SeqCounterRow) (kt : String) (v : Nat) :
    seqCounterUpsert rows kt none v = rows ++ [⟨kt, none, v⟩] := by
  simp [seqCounterUpsert]

theorem seqCounterSelect_eq_zero_of_not_any (rows : List SeqCounterRow) (kt : String)
    (kh : Option B256) (h : rows.any (matchesKey kt kh) = false) :
    seqCounterSelect rows kt kh = 0 := by
  unfold seqCounterSelect
  have hnone : rows.find? (matchesKey kt kh) = none := by
    rw [List.find?_eq_none]
    intro x hx hpx
    exact absurd ((List.any_eq_true).2 ⟨x, hx, hpx⟩) (by simp [h])
  rw [hnone]

theorem seqCounterSelect_append_none (rows : List SeqCounterRow) (kt : String) (v : Nat) :
    seqCounterSelect (rows ++ [⟨kt, none, v⟩]) kt none =
      if rows.any (matchesKey kt none) = true then seqCounterSelect rows kt none else v := by
  by_cases hany : rows.any (matchesKey kt none) = true
  · rw [if_pos hany]
    unfold seqCounterSelect
    rw [List.find?_append]
    rcases hf : rows.find? (matchesKey kt none) with _ | r
    · rw [List.find?_eq_none] at hf
      rcases (List.any_eq_true).1 hany with ⟨x, hx, hpx⟩
      exact absurd hpx (hf x hx)
    · rfl
  · rw [if_neg hany]
    exact seqCounterSelect_append_self rows kt none v (by simpa using hany)

theorem seqCounterSelect_map_frame (kt kt' : String) (kh kh' : Option B256) (v : Nat)
    (hne : ¬(kt' = kt ∧ kh' = kh)) :
    ∀ (rows : List SeqCounterRow),
      seqCounterSelect
        (rows.map (fun r => if matchesKey kt kh r then { r with next_seq := v } else r))
        kt' kh' = seqCounterSelect rows kt' kh' := by
  intro rows
  induction rows with
  | nil => rfl
  | cons r rows ih =>
    by_cases hm' : matchesKey kt' kh' r = true
    · have hm : matchesKey kt kh r = false := by
        by_contra hc
        have hc' : matchesKey kt kh r = true := by simpa using hc
        obtain ⟨h1, h2⟩ := matchesKey_both hc' hm'
        exact hne ⟨h1.symm, h2.symm⟩
      simp only [List.map_cons, hm, Bool.false_eq_true, if_false]
      rw [seqCounterSelect_cons_pos _ hm', seqCounterSelect_cons_pos _ hm']
    · have hm'' :
          matchesKey kt' kh'
            (if matchesKey kt kh r = true then { r with next_seq := v } else r) = false := by
        split
        · rw [matchesKey_set_next]
          simpa using hm'
        · simpa using hm'
      simp only [List.map_cons]
      rw [seqCounterSelect_cons_neg _ (by simpa using hm''),
        seqCounterSelect_cons_neg _ (by simpa using hm')]
      exact ih

theorem seqCounterSelect_append_frame (rows : List SeqCounterRow) (kt kt' : String)
    (kh kh' : Option B256) (v : Nat) (hne : ¬(kt' = kt ∧ kh' = kh)) :
    seqCounterSelect (rows ++ [⟨kt, kh, v⟩]) kt' kh' = seqCounterSelect rows kt' kh' := by
  unfold seqCounterSelect
  rw [List.find?_append]
  have hnew : List.find? (matchesKey kt' kh') [⟨kt, kh, v⟩] = none := by
    simp only [List.find?]
    have : matchesKey kt' kh' ⟨kt, kh, v⟩ = false := by
      by_contra hc
      have hc' : matchesKey kt' kh' ⟨kt, kh, v⟩ = true := by simpa using hc
      obtain ⟨h1, h2⟩ := matchesKey_both (matchesKey_self kt kh v) hc'
      exact hne ⟨h1.symm, h2.symm⟩
    rw [this]
  rw [hnew]
  rcases rows.find? (matchesKey kt' kh') with _ | r <;> rfl

theorem seqCounterSelect_upsert_frame (rows : List SeqCounterRow) (kt kt' : String)
    (kh kh' : Option B256) (v : Nat) (hne : ¬(kt' = kt ∧ kh' = kh)) :
    seqCounterSelect (seqCounterUpsert rows kt kh v) kt' kh' =
      seqCounterSelect rows kt' kh' := by
  unfold seqCounterUpsert
  split
  · exact seqCounterSelect_map_frame kt kt' kh kh' v hne rows
  · exact seqCounterSelect_append_frame rows kt kt' kh kh' v hne

theorem gis_fst (db : Db) (kt : String) (kh : Option B256) :
    (get_and_increment_seq db kt kh).1 = seqCounterSelect db.seq_counters kt kh := rfl

theorem gis_snd_seq_counters (db : Db) (kt : String) (kh : Option B256) :
    (get_and_increment_seq db kt kh).2.seq_counters =
      seqCounterUpsert db.seq_counters kt kh (seqCounterSelect db.seq_counters kt kh + 1) :=
  rfl

theorem gis_snd_messages (db : Db) (kt : String) (kh : Option B256) :
    (get_and_increment_seq db kt kh).2.messages = db.messages := rfl

theorem gis_snd_handshakes (db : Db) (kt : String) (kh : Option B256) :
    (get_and_increment_seq db kt kh).2.handshakes = db.handshakes := rfl

theorem gis_snd_hsr (db : Db) (kt : String) (kh : Option B256) :
    (get_and_increment_seq db kt kh).2.handshake_responses = db.handshake_responses := rfl

theorem insert_message_snd_messages (db : Db) (row : MessageRow) :
    (insert_message db row).2.messages =
      if db.messages.any (fun r => r.topic == row.topic && r.seq == row.seq) then
        db.messages
      else db.messages ++ [row] := by
  unfold insert_message
  split <;> simp_all

theorem insert_message_snd_handshakes (db : Db) (row : MessageRow) :
    (insert_message db row).2.handshakes = db.handshakes := by
  unfold insert_message
  split <;> rfl

theorem insert_message_snd_hsr (db : Db) (row : MessageRow) :
    (insert_message db row).2.handshake_responses = db.handshake_responses := by
  unfold insert_message
  split <;> rfl

theorem insert_message_snd_seq_counters (db : Db) (row : MessageRow) :
    (insert_message db row).2.seq_counters = db.seq_counters := by
  unfold insert_message
  split <;> rfl

theorem insert_handshake_snd_handshakes (db : Db) (row : HandshakeRow) :
    (insert_handshake db row).2.handshakes =
      if db.handshakes.any
          (fun r => r.recipient_hash == row.recipient_hash && r.seq == row.seq) then
        db.handshakes
      else db.handshakes ++ [row] := by
  unfold insert_handshake
  split <;> simp_all

theorem insert_handshake_snd_messages (db : Db) (row : HandshakeRow) :
    (insert_handshake db row).2.messages = db.messages := by
  unfold insert_handshake
  split <;> rfl

theorem insert_handshake_snd_hsr (db : Db) (row : HandshakeRow) :
    (insert_handshake db row).2.handshake_responses = db.handshake_responses := by
  unfold insert_handshake
  split <;> rfl

theorem insert_handshake_snd_seq_counters (db : Db) (row : HandshakeRow) :
    (insert_handshake db row).2.seq_counters = db.seq_counters := by
  unfold insert_handshake
  split <;> rfl

theorem insert_hsr_snd_hsr (db : Db) (row : HsrRow) :
    (insert_hsr db row).2.handshake_responses =
      if db.handshake_responses.any (fun r => r.global_seq == row.global_seq) then
        db.handshake_responses
      else db.handshake_responses ++ [row] := by
  unfold insert_hsr
  split <;> simp_all

theorem insert_hsr_snd_messages (db : Db) (row : HsrRow) :
    (insert_hsr db row).2.messages = db.messages := by
  unfold insert_hsr
  split <;> rfl

theorem insert_hsr_snd_handshakes (db : Db) (row : HsrRow) :
    (insert_hsr db row).2.handshakes = db.handshakes := by
  unfold insert_hsr
  split <;> rfl

theorem insert_hsr_snd_seq_counters (db : Db) (row : HsrRow) :
    (insert_hsr db row).2.seq_counters = db.seq_counters := by
  unfold insert_hsr
  split <;> rfl

theorem msgSeqs_only_messages (db db' : Db) (h : db'.messages = db.messages) (t : B256) :
    msgSeqs db' t = msgSeqs db t := by
  unfold msgSeqs
  rw [h]

theorem hsSeqs_only_handshakes (db db' : Db) (h : db'.handshakes = db.handshakes)
    (k : B256) : hsSeqs db' k = hsSeqs db k := by
  unfold hsSeqs
  rw [h]

theorem hsrSeqs_only_hsr (db db' : Db)
    (h : db'.handshake_responses = db.handshake_responses) :
    hsrSeqs db' = hsrSeqs db := by
  unfold hsrSeqs
  rw [h]

theorem msgSeqs_append_same (db : Db) (row : MessageRow) (t : B256) (h : row.topic = t) :
    msgSeqs { db with messages := db.messages ++ [row] } t = msgSeqs db t ++ [row.seq] := by
  unfold msgSeqs
  simp only [List.filter_append, List.map_append]
  congr 1
  simp [List.filter, h]

theorem msgSeqs_append_other (db : Db) (row : MessageRow) (t : B256) (h : row.topic ≠ t) :
    msgSeqs { db with messages := db.messages ++ [row] } t = msgSeqs db t := by
  unfold msgSeqs
  simp only [List.filter_append]
  have : List.filter (fun r => r.topic == t) [row] = [] := by
    have hb : (row.topic == t) = false := beq_eq_false_iff_ne.mpr h
    simp [List.filter, hb]
  rw [this]
  simp

theorem hsSeqs_append_same (db : Db) (row : HandshakeRow) (k : B256)
    (h : row.recipient_hash = k) :
    hsSeqs { db with handshakes := db.handshakes ++ [row] } k = hsSeqs db k ++ [row.seq] := by
  unfold hsSeqs
  simp only [List.filter_append, List.map_append]
  congr 1
  simp [List.filter, h]

theorem hsSeqs_append_other (db : Db) (row : HandshakeRow) (k : B256)
    (h : row.recipient_hash ≠ k) :
    hsSeqs { db with handshakes := db.handshakes ++ [row] } k = hsSeqs db k := by
  unfold hsSeqs
  simp only [List.filter_append]
  have : List.filter (fun r => r.recipient_hash == k) [row] = [] := by
    have hb : (row.recipient_hash == k) = false := beq_eq_false_iff_ne.mpr h
    simp [List.filter, hb]
  rw [this]
  simp

theorem hsrSeqs_append (db : Db) (row : HsrRow) :
    hsrSeqs { db with handshake_responses := db.handshake_responses ++ [row] } =
      hsrSeqs db ++ [row.global_seq] := by
  unfold hsrSeqs
  simp

theorem msg_any_iff (db : Db) (t : B256) (s : Nat) :
    (db.messages.any fun r => r.topic == t && r.seq == s) = true ↔ s ∈ msgSeqs db t := by
  rw [List.any_eq_true]
  unfold msgSeqs
  simp only [List.mem_map, List.mem_filter, Bool.and_eq_true, beq_iff_eq]
  constructor
  · rintro ⟨r, hr, h1, h2⟩
    exact ⟨r, ⟨hr, h1⟩, h2⟩
  · rintro ⟨r, ⟨hr, h1⟩, h2⟩
    exact ⟨r, hr, h1, h2⟩

theorem hs_any_iff (db : Db) (k : B256) (s : Nat) :
    (db.handshakes.any fun r => r.recipient_hash == k && r.seq == s) = true ↔
      s ∈ hsSeqs db k := by
  rw [List.any_eq_true]
  unfold hsSeqs
  simp only [List.mem_map, List.mem_filter, Bool.and_eq_true, beq_iff_eq]
  constructor
  · rintro ⟨r, hr, h1, h2⟩
    exact ⟨r, ⟨hr, h1⟩, h2⟩
  · rintro ⟨r, ⟨hr, h1⟩, h2⟩
    exact ⟨r, hr, h1, h2⟩

theorem hsr_any_iff (db : Db) (s : Nat) :
    (db.handshake_responses.any fun r => r.global_seq == s) = true ↔ s ∈ hsrSeqs db := by
  rw [List.any_eq_true]
  unfold hsrSeqs
  simp only [List.mem_map, beq_iff_eq]

theorem DbInv_insert_message (db : Db) (sender : Address) (ct : Bytes) (ts : Nat)
    (t : B256) (n : Nat) (bn li bt : Nat) (h : DbInv db) :
    DbInv (insert_message (get_and_increment_seq db "message" (some t)).2
      ⟨t, (get_and_increment_seq db "message" (some t)).1, sender, ct, ts, n,
        bn, li, bt⟩).2 := by
  obtain ⟨hmsg, hhs, hhsr⟩ := h
  rw [gis_fst db "message" (some t)]
  set s := seqCounterSelect db.seq_counters "message" (some t) with hsdef
  set row : MessageRow := ⟨t, s, sender, ct, ts, n, bn, li, bt⟩ with hrowdef
  set db2 := (insert_message (get_and_increment_seq db "message" (some t)).2 row).2
    with hdb2def
  have hsc2 : db2.seq_counters = seqCounterUpsert db.seq_counters "message" (some t) (s + 1) := by
    rw [hdb2def, insert_message_snd_seq_counters, gis_snd_seq_counters]
  have hhs2 : db2.handshakes = db.handshakes := by
    rw [hdb2def, insert_message_snd_handshakes, gis_snd_handshakes]
  have hhsr2 : db2.handshake_responses = db.handshake_responses := by
    rw [hdb2def, insert_message_snd_hsr, gis_snd_hsr]
  have hmem2 : db2.messages =
      if (db.messages.any fun r => r.topic == t && r.seq == s) = true then db.messages
      else db.messages ++ [row] := by
    rw [hdb2def, insert_message_snd_messages, gis_snd_messages]
  refine ⟨?_, ?_, ?_⟩
  · intro t'
    by_cases ht' : t = t'
    · subst ht'
      obtain ⟨hdense, hctr⟩ := hmsg t
      have hsel2 : seqCounterSelect db2.seq_counters "message" (some t) = s + 1 := by
        rw [hsc2]
        exact seqCounterSelect_upsert_some db.seq_counters "message" t (s + 1)
      by_cases hc : (db.messages.any fun r => r.topic == t && r.seq == s) = true
      · have hmm : db2.messages = db.messages := by rw [hmem2, if_pos hc]
        have hseqs : msgSeqs db2 t = msgSeqs db t := msgSeqs_only_messages db db2 hmm t
        have hsmem : s ∈ msgSeqs db t := (msg_any_iff db t s).1 hc
        have hslt : s < (msgSeqs db t).length := by
          rw [hdense] at hsmem
          exact List.mem_range.1 hsmem
        rw [hseqs, hsel2]
        exact ⟨hdense, by omega⟩
      · have hmm : db2.messages = db.messages ++ [row] := by rw [hmem2, if_neg hc]
        have hseqs : msgSeqs db2 t = msgSeqs db t ++ [s] := by
          rw [msgSeqs_only_messages { db with messages := db.messages ++ [row] } db2 hmm t]
          exact msgSeqs_append_same db row t rfl
        have hsnot : s ∉ msgSeqs db t := fun hmem =>
          hc ((msg_any_iff db t s).2 hmem)
        have hseq : s = (msgSeqs db t).length := by
          have : ¬ s < (msgSeqs db t).length := fun hlt =>
            hsnot (by rw [hdense]; exact List.mem_range.2 hlt)
          omega
        constructor
        · rw [hseqs, hdense]
          have hlen : (List.range (msgSeqs db t).length ++ [s]).length =
              (msgSeqs db t).length + 1 := by simp
          rw [hlen, List.range_succ, hseq]
        · rw [hseqs, hsel2]
          simp only [List.length_append, List.length_singleton]
          omega
    · obtain ⟨hdense, hctr⟩ := hmsg t'
      have hseqs : msgSeqs db2 t' = msgSeqs db t' := by
        by_cases hc : (db.messages.any fun r => r.topic == t && r.seq == s) = true
        · exact msgSeqs_only_messages db db2 (by rw [hmem2, if_pos hc]) t'
        · rw [msgSeqs_only_messages { db with messages := db.messages ++ [row] } db2
            (by rw [hmem2, if_neg hc]) t']
          exact msgSeqs_append_other db row t' ht'
      have hsel : seqCounterSelect db2.seq_counters "message" (some t') =
          seqCounterSelect db.seq_counters "message" (some t') := by
        rw [hsc2]
        exact seqCounterSelect_upsert_frame db.seq_counters "message" "message"
          (some t) (some t') (s + 1) (by rintro ⟨-, h2⟩; exact ht' (Option.some.inj h2).symm)
      rw [hseqs, hsel]
      exact ⟨hdense, hctr⟩
  · intro k
    obtain ⟨hdense, hctr⟩ := hhs k
    have hseqs : hsSeqs db2 k = hsSeqs db k := hsSeqs_only_handshakes db db2 hhs2 k
    have hsel : seqCounterSelect db2.seq_counters "handshake" (some k) =
        seqCounterSelect db.seq_counters "handshake" (some k) := by
      rw [hsc2]
      exact seqCounterSelect_upsert_frame db.seq_counters "message" "handshake"
        (some t) (some k) (s + 1) (by rintro ⟨h1, -⟩; exact absurd h1 (by decide))
    rw [hseqs, hsel]
    exact ⟨hdense, hctr⟩
  · obtain ⟨hdense, hctr⟩ := hhsr
    have hseqs : hsrSeqs db2 = hsrSeqs db := hsrSeqs_only_hsr db db2 hhsr2
    have hsel : seqCounterSelect db2.seq_counters "hsr" none =
        seqCounterSelect db.seq_counters "hsr" none := by
      rw [hsc2]
      exact seqCounterSelect_upsert_frame db.seq_counters "message" "hsr"
        (some t) none (s + 1) (by rintro ⟨h1, -⟩; exact absurd h1 (by decide))
    rw [hseqs, hsel]
    exact ⟨hdense, hctr⟩

theorem DbInv_insert_handshake (db : Db) (rh : B256) (sender : Address)
    (pk epk pp : Bytes) (bn li bt : Nat) (h : DbInv db) :
    DbInv (insert_handshake (get_and_increment_seq db "handshake" (some rh)).2
      ⟨rh, (get_and_increment_seq db "handshake" (some rh)).1, sender, pk, epk, pp,
        bn, li, bt⟩).2 := by
  obtain ⟨hmsg, hhs, hhsr⟩ := h
  rw [gis_fst db "handshake" (some rh)]
  set s := seqCounterSelect db.seq_counters "handshake" (some rh) with hsdef
  set row : HandshakeRow := ⟨rh, s, sender, pk, epk, pp, bn, li, bt⟩ with hrowdef
  set db2 := (insert_handshake (get_and_increment_seq db "handshake" (some rh)).2 row).2
    with hdb2def
  have hsc2 : db2.seq_counters =
      seqCounterUpsert db.seq_counters "handshake" (some rh) (s + 1) := by
    rw [hdb2def, insert_handshake_snd_seq_counters, gis_snd_seq_counters]
  have hmsg2 : db2.messages = db.messages := by
    rw [hdb2def, insert_handshake_snd_messages, gis_snd_messages]
  have hhsr2 : db2.handshake_responses = db.handshake_responses := by
    rw [hdb2def, insert_handshake_snd_hsr, gis_snd_hsr]
  have hmem2 : db2.handshakes =
      if (db.handshakes.any fun r => r.recipient_hash == rh && r.seq == s) = true then
        db.handshakes
      else db.handshakes ++ [row] := by
    rw [hdb2def, insert_handshake_snd_handshakes, gis_snd_handshakes]
  refine ⟨?_, ?_, ?_⟩
  · intro t
    obtain ⟨hdense, hctr⟩ := hmsg t
    have hseqs : msgSeqs db2 t = msgSeqs db t := msgSeqs_only_messages db db2 hmsg2 t
    have hsel : seqCounterSelect db2.seq_counters "message" (some t) =
        seqCounterSelect db.seq_counters "message" (some t) := by
      rw [hsc2]
      exact seqCounterSelect_upsert_frame db.seq_counters "handshake" "message"
        (some rh) (some t) (s + 1) (by rintro ⟨h1, -⟩; exact absurd h1 (by decide))
    rw [hseqs, hsel]
    exact ⟨hdense, hctr⟩
  · intro k
    by_cases hk : rh = k
    · subst hk
      obtain ⟨hdense, hctr⟩ := hhs rh
      have hsel2 : seqCounterSelect db2.seq_counters "handshake" (some rh) = s + 1 := by
        rw [hsc2]
        exact seqCounterSelect_upsert_some db.seq_counters "handshake" rh (s + 1)
      by_cases hc : (db.handshakes.any fun r => r.recipient_hash == rh && r.seq == s) = true
      · have hmm : db2.handshakes = db.handshakes := by rw [hmem2, if_pos hc]
        have hseqs : hsSeqs db2 rh = hsSeqs db rh := hsSeqs_only_handshakes db db2 hmm rh
        have hsmem : s ∈ hsSeqs db rh := (hs_any_iff db rh s).1 hc
        have hslt : s < (hsSeqs db rh).length := by
          rw [hdense] at hsmem
          exact List.mem_range.1 hsmem
        rw [hseqs, hsel2]
        exact ⟨hdense, by omega⟩
      · have hmm : db2.handshakes = db.handshakes ++ [row] := by rw [hmem2, if_neg hc]
        have hseqs : hsSeqs db2 rh = hsSeqs db rh ++ [s] := by
          rw [hsSeqs_only_handshakes { db with handshakes := db.handshakes ++ [row] } db2
            hmm rh]
          exact hsSeqs_append_same db row rh rfl
        have hsnot : s ∉ hsSeqs db rh := fun hmem => hc ((hs_any_iff db rh s).2 hmem)
        have hseq : s = (hsSeqs db rh).length := by
          have : ¬ s < (hsSeqs db rh).length := fun hlt =>
            hsnot (by rw [hdense]; exact List.mem_range.2 hlt)
          omega
        constructor
        · rw [hseqs, hdense]
          have hlen : (List.range (hsSeqs db rh).length ++ [s]).length =
              (hsSeqs db rh).length + 1 := by simp
          rw [hlen, List.range_succ, hseq]
        · rw [hseqs, hsel2]
          simp only [List.length_append, List.length_singleton]
          omega
    · obtain ⟨hdense, hctr⟩ := hhs k
      have hseqs : hsSeqs db2 k = hsSeqs db k := by
        by_cases hc : (db.handshakes.any fun r => r.recipient_hash == rh && r.seq == s) = true
        · exact hsSeqs_only_handshakes db db2 (by rw [hmem2, if_pos hc]) k
        · rw [hsSeqs_only_handshakes { db with handshakes := db.handshakes ++ [row] } db2
            (by rw [hmem2, if_neg hc]) k]
          exact hsSeqs_append_other db row k hk
      have hsel : seqCounterSelect db2.seq_counters "handshake" (some k) =
          seqCounterSelect db.seq_counters "handshake" (some k) := by
        rw [hsc2]
        exact seqCounterSelect_upsert_frame db.seq_counters "handshake" "handshake"
          (some rh) (some k) (s + 1)
          (by rintro ⟨-, h2⟩; exact hk (Option.some.inj h2).symm)
      rw [hseqs, hsel]
      exact ⟨hdense, hctr⟩
  · obtain ⟨hdense, hctr⟩ := hhsr
    have hseqs : hsrSeqs db2 = hsrSeqs db := hsrSeqs_only_hsr db db2 hhsr2
    have hsel : seqCounterSelect db2.seq_counters "hsr" none =
        seqCounterSelect db.seq_counters "hsr" none := by
      rw [hsc2]
      exact seqCounterSelect_upsert_frame db.seq_counters "handshake" "hsr"
        (some rh) none (s + 1) (by rintro ⟨h1, -⟩; exact absurd h1 (by decide))
    rw [hseqs, hsel]
    exact ⟨hdense, hctr⟩

theorem DbInv_insert_hsr (db : Db) (irt : B256) (responder : Address) (rer : B256)
    (ct : Bytes) (bn li bt : Nat) (h : DbInv db) :
    DbInv (insert_hsr (get_and_increment_seq db "hsr" none).2
      ⟨(get_and_increment_seq db "hsr" none).1, irt, responder, rer, ct, bn, li, bt⟩).2 := by
  obtain ⟨hmsg, hhs, hhsr⟩ := h
  rw [gis_fst db "hsr" none]
  set s := seqCounterSelect db.seq_counters "hsr" none with hsdef
  set row : HsrRow := ⟨s, irt, responder, rer, ct, bn, li, bt⟩ with hrowdef
  set db2 := (insert_hsr (get_and_increment_seq db "hsr" none).2 row).2 with hdb2def
  have hsc2 : db2.seq_counters = db.seq_counters ++ [⟨"hsr", none, s + 1⟩] := by
    rw [hdb2def, insert_hsr_snd_seq_counters, gis_snd_seq_counters,
      seqCounterUpsert_none_eq]
  have hmsg2 : db2.messages = db.messages := by
    rw [hdb2def, insert_hsr_snd_messages, gis_snd_messages]
  have hhs2 : db2.handshakes = db.handshakes := by
    rw [hdb2def, insert_hsr_snd_handshakes, gis_snd_handshakes]
  have hmem2 : db2.handshake_responses =
      if (db.handshake_responses.any fun r => r.global_seq == s) = true then
        db.handshake_responses
      else db.handshake_responses ++ [row] := by
    rw [hdb2def, insert_hsr_snd_hsr, gis_snd_hsr]
  have hsel2 : seqCounterSelect db2.seq_counters "hsr" none =
      if db.seq_counters.any (matchesKey "hsr" none) = true then s else s + 1 := by
    rw [hsc2, seqCounterSelect_append_none]
  refine ⟨?_, ?_, ?_⟩
  · intro t
    obtain ⟨hdense, hctr⟩ := hmsg t
    have hseqs : msgSeqs db2 t = msgSeqs db t := msgSeqs_only_messages db db2 hmsg2 t
    have hsel : seqCounterSelect db2.seq_counters "message" (some t) =
        seqCounterSelect db.seq_counters "message" (some t) := by
      rw [hsc2]
      exact seqCounterSelect_append_frame db.seq_counters "hsr" "message" none
        (some t) (s + 1) (by rintro ⟨h1, -⟩; exact absurd h1 (by decide))
    rw [hseqs, hsel]
    exact ⟨hdense, hctr⟩
  · intro k
    obtain ⟨hdense, hctr⟩ := hhs k
    have hseqs : hsSeqs db2 k = hsSeqs db k := hsSeqs_only_handshakes db db2 hhs2 k
    have hsel : seqCounterSelect db2.seq_counters "handshake" (some k) =
        seqCounterSelect db.seq_counters "handshake" (some k) := by
      rw [hsc2]
      exact seqCounterSelect_append_frame db.seq_counters "hsr" "handshake" none
        (some k) (s + 1) (by rintro ⟨h1, -⟩; exact absurd h1 (by decide))
    rw [hseqs, hsel]
    exact ⟨hdense, hctr⟩
  · obtain ⟨hdense, hctr⟩ := hhsr
    by_cases hc : (db.handshake_responses.any fun r => r.global_seq == s) = true
    · have hmm : db2.handshake_responses = db.handshake_responses := by
        rw [hmem2, if_pos hc]
      have hseqs : hsrSeqs db2 = hsrSeqs db := hsrSeqs_only_hsr db db2 hmm
      have hsmem : s ∈ hsrSeqs db := (hsr_any_iff db s).1 hc
      have hslt : s < (hsrSeqs db).length := by
        rw [hdense] at hsmem
        exact List.mem_range.1 hsmem
      refine ⟨by rw [hseqs]; exact hdense, ?_⟩
      rw [hseqs, hsel2]
      by_cases hany : db.seq_counters.any (matchesKey "hsr" none) = true
      · rw [if_pos hany]
        omega
      · rw [if_neg hany]
        have hs0 : s = 0 := by
          rw [hsdef]
          exact seqCounterSelect_eq_zero_of_not_any db.seq_counters "hsr" none
            (by simpa using hany)
        omega
    · have hmm : db2.handshake_responses = db.handshake_responses ++ [row] := by
        rw [hmem2, if_neg hc]
      have hseqs : hsrSeqs db2 = hsrSeqs db ++ [s] := by
        rw [hsrSeqs_only_hsr
          { db with handshake_responses := db.handshake_responses ++ [row] } db2 hmm]
        exact hsrSeqs_append db row
      have hsnot : s ∉ hsrSeqs db := fun hmem => hc ((hsr_any_iff db s).2 hmem)
      have hseq : s = (hsrSeqs db).length := by
        have : ¬ s < (hsrSeqs db).length := fun hlt =>
          hsnot (by rw [hdense]; exact List.mem_range.2 hlt)
        omega
      constructor
      · rw [hseqs, hdense]
        have hlen : (List.range (hsrSeqs db).length ++ [s]).length =
            (hsrSeqs db).length + 1 := by simp
        rw [hlen, List.range_succ, hseq]
      · rw [hseqs, hsel2]
        simp only [List.length_append, List.length_singleton]
        by_cases hany : db.seq_counters.any (matchesKey "hsr" none) = true
        · rw [if_pos hany]
          omega
        · rw [if_neg hany]
          omega

theorem process_eq_messageSent (db : Db) (log : LogWithMeta) (sender : Address)
    (ct : Bytes) (ts : Nat) (t : B256) (n : Nat)
    (hev : log.event = .MessageSent sender ct ts t n)
    (hv : validate_payload_sizes log.event = .ok ()) :
    EventProcessor.process db log =
      (.ok (insert_message (get_and_increment_seq db "message" (some t)).2
          ⟨t, (get_and_increment_seq db "message" (some t)).1, sender, ct, ts, n,
            log.block_number, log.log_index, log.block_timestamp⟩).1,
       (insert_message (get_and_increment_seq db "message" (some t)).2
          ⟨t, (get_and_increment_seq db "message" (some t)).1, sender, ct, ts, n,
            log.block_number, log.log_index, log.block_timestamp⟩).2) := by
  unfold EventProcessor.process
  rw [hv, hev]

theorem process_eq_handshake (db : Db) (log : LogWithMeta) (rh : B256)
    (sender : Address) (pk epk pp : Bytes)
    (hev : log.event = .Handshake rh sender pk epk pp)
    (hv : validate_payload_sizes log.event = .ok ()) :
    EventProcessor.process db log =
      (.ok (insert_handshake (get_and_increment_seq db "handshake" (some rh)).2
          ⟨rh, (get_and_increment_seq db "handshake" (some rh)).1, sender, pk, epk, pp,
            log.block_number, log.log_index, log.block_timestamp⟩).1,
       (insert_handshake (get_and_increment_seq db "handshake" (some rh)).2
          ⟨rh, (get_and_increment_seq db "handshake" (some rh)).1, sender, pk, epk, pp,
            log.block_number, log.log_index, log.block_timestamp⟩).2) := by
  unfold EventProcessor.process
  rw [hv, hev]

theorem process_eq_hsr (db : Db) (log : LogWithMeta) (irt : B256)
    (responder : Address) (rer : B256) (ct : Bytes)
    (hev : log.event = .HandshakeResponse irt responder rer ct)
    (hv : validate_payload_sizes log.event = .ok ()) :
    EventProcessor.process db log =
      (.ok (insert_hsr (get_and_increment_seq db "hsr" none).2
          ⟨(get_and_increment_seq db "hsr" none).1, irt, responder, rer, ct,
            log.block_number, log.log_index, log.block_timestamp⟩).1,
       (insert_hsr (get_and_increment_seq db "hsr" none).2
          ⟨(get_and_increment_seq db "hsr" none).1, irt, responder, rer, ct,
            log.block_number, log.log_index, log.block_timestamp⟩).2) := by
  unfold EventProcessor.process
  rw [hv, hev]

theorem DbInv_step (db : Db) (log : LogWithMeta) (h : DbInv db) :
    DbInv (EventProcessor.process db log).2 := by
  cases hv : validate_payload_sizes log.event with
  | error e0 =>
    rw [process_of_validate_error db log e0 hv]
    exact h
  | ok u =>
    cases u
    cases hev : log.event with
    | MessageSent sender ct ts t n =>
      rw [process_eq_messageSent db log sender ct ts t n hev hv]
      exact DbInv_insert_message db sender ct ts t n log.block_number log.log_index
        log.block_timestamp h
    | Handshake rh sender pk epk pp =>
      rw [process_eq_handshake db log rh sender pk epk pp hev hv]
      exact DbInv_insert_handshake db rh sender pk epk pp log.block_number log.log_index
        log.block_timestamp h
    | HandshakeResponse irt responder rer ct =>
      rw [process_eq_hsr db log irt responder rer ct hev hv]
      exact DbInv_insert_hsr db irt responder rer ct log.block_number log.log_index
        log.block_timestamp h

theorem DbInv_empty : DbInv emptyDb :=
  ⟨fun _ => ⟨rfl, le_refl 0⟩, fun _ => ⟨rfl, le_refl 0⟩, ⟨rfl, le_refl 0⟩⟩

theorem DbInv_replay (logs : List LogWithMeta) : DbInv (replay logs) := by
  have haux : ∀ (ls : List LogWithMeta) (db : Db), DbInv db →
      DbInv (ls.foldl (fun db log => (EventProcessor.process db log).2) db) := by
    intro ls
    induction ls with
    | nil => intro db hdb; exact hdb
    | cons l ls ih =>
      intro db hdb
      exact ih _ (DbInv_step db l hdb)
  exact haux logs emptyDb DbInv_empty

/-- Claim C2 (confirmed).  In every store reachable from the freshly
migrated database by any sequence of `EventProcessor::process` calls, the
stored `seq` values of each stream — each `topic` for messages, each
`recipient_hash` for handshakes, and the single global
handshake-response stream — form exactly the set `{0, 1, …, N-1}` where
`N` is the number of stored rows for that key: dense and gap-free. -/
theorem replay_streams_dense (logs : List LogWithMeta) :
    (∀ t s, s ∈ msgSeqs (replay logs) t ↔ s < (msgSeqs (replay logs) t).length) ∧
    (∀ k s, s ∈ hsSeqs (replay logs) k ↔ s < (hsSeqs (replay logs) k).length) ∧
    (∀ s, s ∈ hsrSeqs (replay logs) ↔ s < (hsrSeqs (replay logs)).length) := by
  obtain ⟨hmsg, hhs, hhsr⟩ := DbInv_replay logs
  refine ⟨?_, ?_, ?_⟩
  · intro t s
    constructor
    · intro hmem
      rw [(hmsg t).1] at hmem
      exact List.mem_range.1 hmem
    · intro hlt
      rw [(hmsg t).1]
      exact List.mem_range.2 hlt
  · intro k s
    constructor
    · intro hmem
      rw [(hhs k).1] at hmem
      exact List.mem_range.1 hmem
    · intro hlt
      rw [(hhs k).1]
      exact List.mem_range.2 hlt
  · intro s
    constructor
    · intro hmem
      rw [hhsr.1] at hmem
      exact List.mem_range.1 hmem
    · intro hlt
      rw [hhsr.1]
      exact List.mem_range.2 hlt

/-- Witness for C2: scenario S1's trace (three `MessageSent` logs on
topic 17) followed by two `HandshakeResponse` logs, instantiated at the
message stream of topic 17. -/
theorem replay_streams_dense_witness :
    (2 ∈ msgSeqs (replay
        [⟨.MessageSent 1 [0] 0 17 0, 100, 0, 0⟩,
         ⟨.MessageSent 1 [1] 0 17 1, 100, 1, 0⟩,
         ⟨.MessageSent 1 [2] 0 17 2, 101, 0, 0⟩,
         ⟨.HandshakeResponse 3 4 5 [0], 101, 1, 0⟩,
         ⟨.HandshakeResponse 6 7 8 [1], 101, 2, 0⟩]) 17 ↔
      2 < (msgSeqs (replay
        [⟨.MessageSent 1 [0] 0 17 0, 100, 0, 0⟩,
         ⟨.MessageSent 1 [1] 0 17 1, 100, 1, 0⟩,
         ⟨.MessageSent 1 [2] 0 17 2, 101, 0, 0⟩,
         ⟨.HandshakeResponse 3 4 5 [0], 101, 1, 0⟩,
         ⟨.HandshakeResponse 6 7 8 [1], 101, 2, 0⟩]) 17).length) :=
  (replay_streams_dense
    [⟨.MessageSent 1 [0] 0 17 0, 100, 0, 0⟩,
     ⟨.MessageSent 1 [1] 0 17 1, 100, 1, 0⟩,
     ⟨.MessageSent 1 [2] 0 17 2, 101, 0, 0⟩,
     ⟨.HandshakeResponse 3 4 5 [0], 101, 1, 0⟩,
     ⟨.HandshakeResponse 6 7 8 [1], 101, 2, 0⟩]).1 17 2
